import Mathlib

set_option maxHeartbeats 1000000

/-!
Shallow embedding of onnxruntime's PadFusion rewrite rule
(`onnxruntime/core/optimizer/pad_fusion.cc`).

The rule's own logic (`VerifyNotCastChild`, `UpdatePaddingAttribute`,
`PadFusion::SatisfyCondition`, `PadFusion::Apply`) is translated directly from
the source file.  The graph IR it operates on (nodes, attributes, edges,
constant initializers) is an external collaborator of that file and is
modelled from the specification's data model: a graph owns typed operator
nodes addressed by stable indices, edges are (producer, consumer, input-slot)
triples, attributes are a name-to-tagged-value map, and constant initializers
are statically known tensors reachable by name.

Machine integers are modelled by `Nat`/`Int`; the one place where unsigned
wraparound matters (`pads_size - 4` on a `uint32_t`) is modelled with an
explicit `% 2^32`.  Fallible operations (dereferencing a possibly-null
pointer, `std::map::at`, out-of-range `Get`/`Set` on a repeated field) are
modelled in `Option`.
-/

/-- Modelled from the spec: a tensor shape descriptor.  Only identity of
shapes matters to this rule (the cast-output shape is overwritten wholesale),
so dimensions are plain integers. -/
abbrev TensorShape := List Int

/-- Modelled from the spec: a `NodeArg`, i.e. a tensor reference: a name and
an optional shape descriptor (`NodeArg::Shape()` may be null when shape
inference has not produced one). -/
structure NodeArg where
  name : String
  shape : Option TensorShape
deriving DecidableEq, Repr

/-- Modelled from the spec: a tagged attribute value (`AttributeProto`
restricted to the kinds this rule touches: string, float, integer,
list-of-integer).  The float payload is modelled as a rational number. -/
inductive AttrValue where
  | str (v : String)
  | flt (v : Rat)
  | int (v : Int)
  | ints (v : List Int)
deriving DecidableEq, Repr

/-- Proto accessor `.s()`: the string payload, or the empty-string default
when the stored kind differs. -/
def AttrValue.sval : AttrValue → String
  | .str v => v
  | _ => ""

/-- Proto accessor `.f()`: the float payload, or the 0.0 default. -/
def AttrValue.fval : AttrValue → Rat
  | .flt v => v
  | _ => 0

/-- Proto accessor `.i()`: the integer payload, or the 0 default. -/
def AttrValue.ival : AttrValue → Int
  | .int v => v
  | _ => 0

/-- Proto accessor `.ints()`: the integer-list payload, or the empty default. -/
def AttrValue.intsval : AttrValue → List Int
  | .ints v => v
  | _ => []

/-- Modelled from the spec: a graph node: identity (stable index), operator
kind and opset version, domain, ordered input/output tensor references, and
a name-to-value attribute map. -/
structure Node where
  index : Nat
  opType : String
  domain : String
  sinceVersion : Int
  inputDefs : List NodeArg
  outputDefs : List NodeArg
  attributes : List (String × AttrValue)
deriving DecidableEq, Repr

/-- Modelled from the spec: a constant tensor (`Initializer`), exposed both
as a typed int64 element sequence (`DataAsSpan<int64_t>`) and as a raw byte
view (`DataAsByteSpan`). -/
structure Initializer where
  int64Data : List Int
  rawBytes : List Nat
deriving DecidableEq, Repr

/-- Modelled from the spec: a directed edge: producer node index, consumer
node index, and the consumer's input slot. -/
structure Edge where
  src : Nat
  dst : Nat
  dstSlot : Nat
deriving DecidableEq, Repr

/-- Modelled from the spec: the graph: it owns all nodes, the edge set, the
set of graph-output tensor names, and the constant-initializer store.  The
edge list's order models the iteration order of ORT's edge set (so the first
outgoing edge of a single-consumer node is its sole consumer). -/
structure Graph where
  nodes : List Node
  edges : List Edge
  graphOutputs : List String
  constantInitializers : List (String × Initializer)
deriving DecidableEq, Repr

/-- `Graph::GetNode`: node lookup by index; null when absent. -/
def Graph.getNode (g : Graph) (idx : Nat) : Option Node :=
  g.nodes.find? (fun m => m.index == idx)

/-- The outgoing edges of the node with the given index. -/
def Graph.outputEdges (g : Graph) (idx : Nat) : List Edge :=
  g.edges.filter (fun e => e.src == idx)

/-- `Node::GetOutputEdgesCount`. -/
def Graph.outputEdgesCount (g : Graph) (idx : Nat) : Nat :=
  (g.outputEdges idx).length

/-- `Node::OutputNodesBegin`, dereferenced: the consumer on the first
outgoing edge.  In ORT an edge stores a live node reference; in this model
the index is resolved through the node table, and a dangling index (a
host-invariant violation) yields `none`. -/
def Graph.outputNodesBegin (g : Graph) (idx : Nat) : Option Node :=
  ((g.outputEdges idx).head?).bind (fun e => g.getNode e.dst)

/-- `Graph::NodeProducesGraphOutput`. -/
def Graph.nodeProducesGraphOutput (g : Graph) (n : Node) : Bool :=
  n.outputDefs.any (fun d => g.graphOutputs.contains d.name)

/-- `graph_utils::GetConstantInitializer`: constant-tensor resolution by
tensor name; null when the name is not a constant initializer. -/
def Graph.getConstantInitializer (g : Graph) (name : String) : Option Initializer :=
  g.constantInitializers.lookup name

/-- `graph_utils::NodeArgIsConstant`: the tensor reference resolves to a
constant initializer. -/
def nodeArgIsConstant (g : Graph) (arg : NodeArg) : Bool :=
  (g.getConstantInitializer arg.name).isSome

/-- `node.InputDefs()[i]`: unchecked vector access, backed by the operator
schema's arity guarantees (a host invariant per the spec); out-of-range
access is modelled by a default (absent-optional-input) `NodeArg`. -/
def inputDef (n : Node) (i : Nat) : NodeArg :=
  n.inputDefs.getD i ⟨"", Option.none⟩

/-- `GetAttributes().find(name)` as an optional lookup. -/
def attrFind (n : Node) (name : String) : Option AttrValue :=
  n.attributes.lookup name

/-- Insert-or-overwrite in the attribute map, preserving the positions of
other entries. -/
def setAttr : List (String × AttrValue) → String → AttrValue → List (String × AttrValue)
  | [], name, v => [(name, v)]
  | (k, w) :: rest, name, v =>
    if k = name then (name, v) :: rest else (k, w) :: setAttr rest name v

/-- `Node::AddAttribute` (overwrites an existing attribute of that name). -/
def Node.addAttribute (n : Node) (name : String) (v : AttrValue) : Node :=
  { n with attributes := setAttr n.attributes name v }

/-- The node's `pads` attribute as an integer list (`.ints()` default when the
attribute is absent or of another kind). -/
def padsOf (n : Node) : List Int :=
  match attrFind n "pads" with
  | some a => a.intsval
  | none => []

/-- Replace the (unique-index) node's stored value in the graph; models
in-place mutation through a node reference. -/
def Graph.updateNode (g : Graph) (idx : Nat) (n' : Node) : Graph :=
  { g with nodes := g.nodes.map (fun m => if m.index = idx then n' else m) }

/-- `graph_utils::RemoveNodeOutputEdges`. -/
def removeNodeOutputEdges (g : Graph) (idx : Nat) : Graph :=
  { g with edges := g.edges.filter (fun e => e.src != idx) }

/-- `graph_utils::ReplaceNodeInput`: repoint one input slot at another
tensor reference. -/
def replaceNodeInput (n : Node) (i : Nat) (arg : NodeArg) : Node :=
  { n with inputDefs := n.inputDefs.set i arg }

/-- `MutableOutputDefs()[0]->SetShape(...)`: overwrite the shape descriptor
of output 0 (arity backed by the operator schema). -/
def setOutputShape (n : Node) (sh : TensorShape) : Node :=
  { n with outputDefs :=
      n.outputDefs.set 0 { (n.outputDefs.getD 0 ⟨"", Option.none⟩) with shape := some sh } }

/-- `Graph::RemoveNode`: delete the node (its output edges must already have
been removed; remaining incident edges are detached as part of removal). -/
def Graph.removeNode (g : Graph) (idx : Nat) : Graph :=
  { g with nodes := g.nodes.filter (fun m => m.index != idx),
           edges := g.edges.filter (fun e => e.src != idx && e.dst != idx) }

/-- `graph_utils::IsSupportedOptypeVersionAndDomain`, modelled from the spec:
operator kind matches, the node's opset version is in the accepted set, and
the node lives in the default ONNX domain. -/
def isSupportedOptypeVersionAndDomain (n : Node) (opType : String) (versions : List Int) : Bool :=
  n.opType == opType && n.domain == "" && versions.contains n.sinceVersion

/-- `RewriteRuleEffect`: the effect a rewrite rule reports to the host
scheduler.  The scheduler initializes it to `kNone` before `Apply`, so an
early return reports no change. -/
inductive RewriteRuleEffect where
  | kNone
  | kUpdatedCurrentNode
  | kRemovedCurrentNode
  | kModifiedRestOfGraph
deriving DecidableEq, Repr

/-- `VerifyNotCastChild` (pad_fusion.cc lines 11-51): the terminal-consumer
check: Conv/AveragePool/MaxPool in a supported version set, at most one
declared output, explicit padding only, and the AveragePool
pre-existing-pads / `count_include_pad = 0` rejection. -/
def verifyNotCastChild (child : Node) : Bool :=
  if !(isSupportedOptypeVersionAndDomain child "Conv" [1, 11]) &&
     !(isSupportedOptypeVersionAndDomain child "AveragePool" [7, 10, 11, 19]) &&
     !(isSupportedOptypeVersionAndDomain child "MaxPool" [1, 8, 10, 11, 12]) then false
  else if child.outputDefs.length > 1 then false
  else if (match attrFind child "auto_pad" with
           | some a => decide (a.sval ≠ "NOTSET")
           | none => false) then false
  else if child.opType == "AveragePool" then
    let hasPad := match attrFind child "pads" with
      | some a => !a.intsval.isEmpty && a.intsval.any (fun v => decide (v ≠ 0))
      | none => false
    if hasPad && (match attrFind child "count_include_pad" with
                  | some a => decide (a.ival = 0)
                  | none => false) then false
    else true
  else true

/-- The child-chain step of `PadFusion::SatisfyCondition` (lines 132-144):
walk through at most one supported Cast (which must have exactly one
outgoing edge and not be a graph output), then run the terminal-consumer
check.  A dangling consumer index (impossible in ORT, where edges store node
references) is treated as no-match. -/
def childCheck (g : Graph) (node : Node) : Bool :=
  match g.outputNodesBegin node.index with
  | some child =>
    if isSupportedOptypeVersionAndDomain child "Cast" [1, 6, 9, 13] then
      if g.outputEdgesCount child.index != 1 then false
      else if g.nodeProducesGraphOutput child then false
      else
        match g.outputNodesBegin child.index with
        | some grandChild => verifyNotCastChild grandChild
        | none => false
    else verifyNotCastChild child
  | none => false

/-- `PadFusion::SatisfyCondition` (lines 91-145). -/
def satisfyCondition (g : Graph) (node : Node) : Bool :=
  if !(isSupportedOptypeVersionAndDomain node "Pad" [1, 2, 11, 13, 18, 19]) ||
     g.outputEdgesCount node.index != 1 ||
     node.inputDefs.length > 3 then false
  else if g.nodeProducesGraphOutput node then false
  else if (match attrFind node "mode" with
           | some a => decide (a.sval ≠ "constant")
           | none => false) then false
  else if node.sinceVersion ≥ 11 then
    if !(nodeArgIsConstant g (inputDef node 1)) ||
       (decide (node.inputDefs.length > 2) && !(nodeArgIsConstant g (inputDef node 2))) then false
    else if node.inputDefs.length > 2 then
      -- constant_value must be all-zero; the initializer was just checked
      -- constant, so the lookup cannot miss.
      match g.getConstantInitializer (inputDef node 2).name with
      | some ini =>
        if ini.rawBytes.any (fun b => decide (b ≠ 0)) then false
        else childCheck g node
      | none => false
    else childCheck g node
  else
    if (match attrFind node "value" with
        | some a => decide (a.fval ≠ 0)
        | none => false) then false
    else childCheck g node

/-- The merge loop of `UpdatePaddingAttribute` (lines 67-72), with explicit
fuel (`ps / 2 - padsIndex` iterations remain).  Reads of the pad-value
vector and of the repeated `pads` field are bounds-checked (`Get` on an
out-of-range index aborts in the source); each `Set` follows a `Get` of the
same index, so it is in bounds whenever the `Get` was. -/
def mergeLoop (pv : List Int) (ps cps : Nat) : Nat → Nat → List Int → Option (List Int)
  | 0, _, acc => some acc
  | fuel + 1, padsIndex, acc => do
    let childIndex := padsIndex - 2
    let a ← pv[padsIndex]?
    let c ← acc[childIndex]?
    let acc1 := acc.set childIndex (c + a)
    let mci := childIndex + cps / 2
    let mpi := padsIndex + ps / 2
    let a2 ← pv[mpi]?
    let c2 ← acc1[mci]?
    mergeLoop pv ps cps fuel (padsIndex + 1) (acc1.set mci (c2 + a2))

/-- `UpdatePaddingAttribute` (lines 53-77).  `padsSize` is the `uint32_t`
cast of the pad-value count; `pads_size - 4` wraps modulo `2^32`. -/
def updatePaddingAttribute (child : Node) (padsValues : List Int) (padsSize : Nat) :
    Option Node := do
  let resetPads := match attrFind child "pads" with
    | some a => a.intsval.isEmpty
    | none => true
  let child1 := if resetPads
    then child.addAttribute "pads"
      (AttrValue.ints (List.replicate ((padsSize + 4294967292) % 4294967296) 0))
    else child
  let childPads := padsOf child1
  let childPadsSize := childPads.length % 4294967296
  let merged ← mergeLoop padsValues padsSize childPadsSize (padsSize / 2 - 2) 2 childPads
  let child2 := child1.addAttribute "pads" (AttrValue.ints merged)
  if child2.opType == "AveragePool" then
    pure (child2.addAttribute "count_include_pad" (AttrValue.int 1))
  else
    pure child2

/-- Pad-value resolution in `PadFusion::Apply` (lines 151-159): version ≥ 11
reads the constant initializer behind input 1 (null dereference when it is
not constant), earlier versions read the `pads` attribute via `.at` (throws
when absent).  The initializer's int64 typing is backed by the Pad schema. -/
def resolvePads (g : Graph) (n : Node) : Option (List Int) :=
  if n.sinceVersion ≥ 11 then
    (g.getConstantInitializer (inputDef n 1).name).map (fun ini => ini.int64Data)
  else
    (attrFind n "pads").map (fun a => a.intsval)

/-- The short-circuited batch/channel guard of `Apply` (lines 163-166):
`p[0] != 0 || p[1] != 0 || p[s/2] != 0 || p[s/2+1] != 0`, with each read
bounds-checked and later reads skipped once a nonzero is found. -/
def nonSpatialPadCheck (p : List Int) (s : Nat) : Option Bool := do
  let v0 ← p[0]?
  if v0 ≠ 0 then return true
  let v1 ← p[1]?
  if v1 ≠ 0 then return true
  let v2 ← p[s / 2]?
  if v2 ≠ 0 then return true
  let v3 ← p[s / 2 + 1]?
  if v3 ≠ 0 then return true
  return false

/-- `PadFusion::Apply` (lines 150-189).  Returns the rewritten graph and the
reported rewrite effect; `none` models a crash (failed dereference or
out-of-bounds access).  The guards' early returns report `kNone` (the
caller-initialized effect) and leave the graph untouched. -/
def padFusionApply (g : Graph) (padNode : Node) : Option (Graph × RewriteRuleEffect) := do
  let padsValues ← resolvePads g padNode
  let padsSize := padsValues.length % 4294967296
  let ns ← nonSpatialPadCheck padsValues padsSize
  if ns then
    pure (g, RewriteRuleEffect.kNone)
  else if padsValues.any (fun v => decide (v < 0)) then
    pure (g, RewriteRuleEffect.kNone)
  else do
    let c0 ← g.outputNodesBegin padNode.index
    let child ← g.getNode c0.index
    let target ← if child.opType == "Cast" then do
        let t0 ← g.outputNodesBegin child.index
        g.getNode t0.index
      else pure child
    let target' ← updatePaddingAttribute target padsValues padsSize
    let g1 := g.updateNode target.index target'
    let g2 := removeNodeOutputEdges g1 padNode.index
    let child2 ← g2.getNode child.index
    let g3 := g2.updateNode child.index (replaceNodeInput child2 0 (inputDef padNode 0))
    let g4 ← if child.opType == "Cast" then do
        let sh ← (inputDef padNode 0).shape
        let c3 ← g3.getNode child.index
        pure (g3.updateNode child.index (setOutputShape c3 sh))
      else pure g3
    let g5 := g4.removeNode padNode.index
    pure (g5, RewriteRuleEffect.kRemovedCurrentNode)

def specMergedPads (base p : List Int) (rank : Nat) : List Int :=
  (List.range (2 * (rank - 2))).map (fun i =>
    base.getD i 0 + (if i < rank - 2 then p.getD (i + 2) 0 else p.getD (i + 4) 0))

def terminalConsumer (g : Graph) (n : Node) : Option Node :=
  match g.outputNodesBegin n.index with
  | some c =>
    if isSupportedOptypeVersionAndDomain c "Cast" [1, 6, 9, 13] then g.outputNodesBegin c.index
    else some c
  | none => none

def exPad : Node :=
  { index := 0, opType := "Pad", domain := "", sinceVersion := 2,
    inputDefs := [⟨"x", some [1, 1, 4, 4]⟩],
    outputDefs := [⟨"p_out", Option.none⟩],
    attributes := [("pads", AttrValue.ints [0, 0, 1, 1, 0, 0, 1, 1])] }

def exConv : Node :=
  { index := 1, opType := "Conv", domain := "", sinceVersion := 1,
    inputDefs := [⟨"p_out", Option.none⟩, ⟨"w", Option.none⟩],
    outputDefs := [⟨"c_out", Option.none⟩],
    attributes := [("pads", AttrValue.ints [0, 0, 0, 0])] }

def exGraphPadConv : Graph :=
  { nodes := [exPad, exConv],
    edges := [⟨0, 1, 0⟩],
    graphOutputs := ["c_out"],
    constantInitializers := [] }

def exConvFused : Node :=
  { index := 1, opType := "Conv", domain := "", sinceVersion := 1,
    inputDefs := [⟨"x", some [1, 1, 4, 4]⟩, ⟨"w", Option.none⟩],
    outputDefs := [⟨"c_out", Option.none⟩],
    attributes := [("pads", AttrValue.ints [1, 1, 1, 1])] }

def exGraphPadConvFused : Graph :=
  { nodes := [exConvFused],
    edges := [],
    graphOutputs := ["c_out"],
    constantInitializers := [] }

def exAvg : Node :=
  { index := 1, opType := "AveragePool", domain := "", sinceVersion := 7,
    inputDefs := [⟨"p_out", Option.none⟩],
    outputDefs := [⟨"a_out", Option.none⟩],
    attributes := [("pads", AttrValue.ints [0, 0, 0, 0]), ("count_include_pad", AttrValue.int 0)] }

def exGraphPadAvg : Graph :=
  { nodes := [exPad, exAvg],
    edges := [⟨0, 1, 0⟩],
    graphOutputs := ["a_out"],
    constantInitializers := [] }

def exAvgFused : Node :=
  { index := 1, opType := "AveragePool", domain := "", sinceVersion := 7,
    inputDefs := [⟨"x", some [1, 1, 4, 4]⟩],
    outputDefs := [⟨"a_out", Option.none⟩],
    attributes := [("pads", AttrValue.ints [1, 1, 1, 1]), ("count_include_pad", AttrValue.int 1)] }

def exGraphPadAvgFused : Graph :=
  { nodes := [exAvgFused],
    edges := [],
    graphOutputs := ["a_out"],
    constantInitializers := [] }

def exCast : Node :=
  { index := 2, opType := "Cast", domain := "", sinceVersion := 6,
    inputDefs := [⟨"p_out", Option.none⟩],
    outputDefs := [⟨"k_out", some [1, 1, 6, 6]⟩],
    attributes := [] }

def exConvK : Node :=
  { index := 1, opType := "Conv", domain := "", sinceVersion := 1,
    inputDefs := [⟨"k_out", Option.none⟩, ⟨"w", Option.none⟩],
    outputDefs := [⟨"c_out", Option.none⟩],
    attributes := [("pads", AttrValue.ints [0, 0, 0, 0])] }

def exGraphPadCastConv : Graph :=
  { nodes := [exPad, exCast, exConvK],
    edges := [⟨0, 2, 0⟩, ⟨2, 1, 0⟩],
    graphOutputs := ["c_out"],
    constantInitializers := [] }

def exPadBatch : Node :=
  { index := 0, opType := "Pad", domain := "", sinceVersion := 2,
    inputDefs := [⟨"x", some [1, 1, 4, 4]⟩],
    outputDefs := [⟨"p_out", Option.none⟩],
    attributes := [("pads", AttrValue.ints [1, 0, 1, 1, 1, 0, 1, 1])] }

def exGraphBatch : Graph :=
  { nodes := [exPadBatch, exConv],
    edges := [⟨0, 1, 0⟩],
    graphOutputs := ["c_out"],
    constantInitializers := [] }

def exPadNeg : Node :=
  { index := 0, opType := "Pad", domain := "", sinceVersion := 2,
    inputDefs := [⟨"x", some [1, 1, 4, 4]⟩],
    outputDefs := [⟨"p_out", Option.none⟩],
    attributes := [("pads", AttrValue.ints [0, 0, 1, -1, 0, 0, 1, 1])] }

def exGraphNeg : Graph :=
  { nodes := [exPadNeg, exConv],
    edges := [⟨0, 1, 0⟩],
    graphOutputs := ["c_out"],
    constantInitializers := [] }

def exPad11 : Node :=
  { index := 0, opType := "Pad", domain := "", sinceVersion := 11,
    inputDefs := [⟨"x", some [1, 1, 4, 4]⟩, ⟨"padsinit", Option.none⟩, ⟨"cv", Option.none⟩],
    outputDefs := [⟨"p_out", Option.none⟩],
    attributes := [] }

def exGraphPad11 : Graph :=
  { nodes := [exPad11, exConv],
    edges := [⟨0, 1, 0⟩],
    graphOutputs := ["c_out"],
    constantInitializers :=
      [("padsinit", ⟨[0, 0, 1, 1, 0, 0, 1, 1], [0, 0, 0, 0]⟩),
       ("cv", ⟨[], [0, 0, 0, 0]⟩)] }

def exBadAvg : Node :=
  { index := 1, opType := "AveragePool", domain := "", sinceVersion := 7,
    inputDefs := [⟨"p_out", Option.none⟩],
    outputDefs := [⟨"a_out", Option.none⟩],
    attributes := [("pads", AttrValue.ints [1, 1, 1, 1]), ("count_include_pad", AttrValue.int 0)] }

def exGraphBadAvg : Graph :=
  { nodes := [exPad, exBadAvg],
    edges := [⟨0, 1, 0⟩],
    graphOutputs := ["a_out"],
    constantInitializers := [] }

def exCastFused : Node :=
  { index := 2, opType := "Cast", domain := "", sinceVersion := 6,
    inputDefs := [⟨"x", some [1, 1, 4, 4]⟩],
    outputDefs := [⟨"k_out", some [1, 1, 4, 4]⟩],
    attributes := [] }

def exConvKFused : Node :=
  { index := 1, opType := "Conv", domain := "", sinceVersion := 1,
    inputDefs := [⟨"k_out", Option.none⟩, ⟨"w", Option.none⟩],
    outputDefs := [⟨"c_out", Option.none⟩],
    attributes := [("pads", AttrValue.ints [1, 1, 1, 1])] }

def exGraphPadCastConvFused : Graph :=
  { nodes := [exCastFused, exConvKFused],
    edges := [⟨2, 1, 0⟩],
    graphOutputs := ["c_out"],
    constantInitializers := [] }

def exPadNoShape : Node :=
  { index := 0, opType := "Pad", domain := "", sinceVersion := 2,
    inputDefs := [⟨"x", Option.none⟩],
    outputDefs := [⟨"p_out", Option.none⟩],
    attributes := [("pads", AttrValue.ints [0, 0, 1, 1, 0, 0, 1, 1])] }

def exGraphCastNoShape : Graph :=
  { nodes := [exPadNoShape, exCast, exConvK],
    edges := [⟨0, 2, 0⟩, ⟨2, 1, 0⟩],
    graphOutputs := ["c_out"],
    constantInitializers := [] }

def exPadShort : Node :=
  { index := 0, opType := "Pad", domain := "", sinceVersion := 2,
    inputDefs := [⟨"x", some [4]⟩],
    outputDefs := [⟨"p_out", Option.none⟩],
    attributes := [("pads", AttrValue.ints [0, 0])] }

def exGraphShort : Graph :=
  { nodes := [exPadShort, exConv],
    edges := [⟨0, 1, 0⟩],
    graphOutputs := ["c_out"],
    constantInitializers := [] }

def exConvShortPads : Node :=
  { index := 1, opType := "Conv", domain := "", sinceVersion := 1,
    inputDefs := [⟨"p_out", Option.none⟩, ⟨"w", Option.none⟩],
    outputDefs := [⟨"c_out", Option.none⟩],
    attributes := [("pads", AttrValue.ints [5])] }

def exGraphConvShortPads : Graph :=
  { nodes := [exPad, exConvShortPads],
    edges := [⟨0, 1, 0⟩],
    graphOutputs := ["c_out"],
    constantInitializers := [] }

theorem lt_length_of_getElem?_eq_some {α : Type} {l : List α} {i : Nat} {v : α}
    (h : l[i]? = some v) : i < l.length := by
  rcases List.getElem?_eq_some.mp h with ⟨h1, _⟩
  exact h1

theorem nonSpatialPadCheck_true (p : List Int) (s : Nat)
    (h : (∃ v, p[0]? = some v ∧ v ≠ 0) ∨ (∃ v, p[1]? = some v ∧ v ≠ 0) ∨
         (∃ v, p[s / 2]? = some v ∧ v ≠ 0) ∨ (∃ v, p[s / 2 + 1]? = some v ∧ v ≠ 0)) :
    nonSpatialPadCheck p s = some true := by
  have hpos : 0 < p.length := by
    rcases h with ⟨v, hv, _⟩ | ⟨v, hv, _⟩ | ⟨v, hv, _⟩ | ⟨v, hv, _⟩ <;>
      exact Nat.lt_of_le_of_lt (Nat.zero_le _) (lt_length_of_getElem?_eq_some hv)
  have h0 : p[0]? = some p[0] := List.getElem?_eq_getElem hpos
  by_cases hz0 : p[0] = 0
  · -- first read is zero, continue
    -- narrow the hypothesis: the witness is not at index 0
    have h' : (∃ v, p[1]? = some v ∧ v ≠ 0) ∨
              (∃ v, p[s / 2]? = some v ∧ v ≠ 0) ∨ (∃ v, p[s / 2 + 1]? = some v ∧ v ≠ 0) := by
      rcases h with ⟨v, hv, hnz⟩ | h | h | h
      · rw [h0] at hv; cases hv; exact absurd hz0 hnz
      · exact Or.inl h
      · exact Or.inr (Or.inl h)
      · exact Or.inr (Or.inr h)
    -- index 1 is readable: any remaining witness index is ≥ 1
    have hlen2 : 1 < p.length := by
      rcases h' with ⟨v, hv, hnz⟩ | ⟨v, hv, hnz⟩ | ⟨v, hv, hnz⟩
      · exact lt_length_of_getElem?_eq_some hv
      · have := lt_length_of_getElem?_eq_some hv
        rcases Nat.eq_zero_or_pos (s / 2) with hq | hq
        · rw [hq, h0] at hv; cases hv; exact absurd hz0 hnz
        · omega
      · have := lt_length_of_getElem?_eq_some hv
        omega
    have h1 : p[1]? = some p[1] := List.getElem?_eq_getElem hlen2
    by_cases hz1 : p[1] = 0
    · have h'' : (∃ v, p[s / 2]? = some v ∧ v ≠ 0) ∨ (∃ v, p[s / 2 + 1]? = some v ∧ v ≠ 0) := by
        rcases h' with ⟨v, hv, hnz⟩ | h | h
        · rw [h1] at hv; cases hv; exact absurd hz1 hnz
        · exact Or.inl h
        · exact Or.inr h
      have hq2 : s / 2 < p.length := by
        rcases h'' with ⟨v, hv, hnz⟩ | ⟨v, hv, hnz⟩
        · exact lt_length_of_getElem?_eq_some hv
        · have := lt_length_of_getElem?_eq_some hv; omega
      have h2 : p[s / 2]? = some p[s / 2] := List.getElem?_eq_getElem hq2
      by_cases hz2 : p[s / 2] = 0
      · have h''' : ∃ v, p[s / 2 + 1]? = some v ∧ v ≠ 0 := by
          rcases h'' with ⟨v, hv, hnz⟩ | h
          · rw [h2] at hv; cases hv; exact absurd hz2 hnz
          · exact h
        rcases h''' with ⟨v, hv, hnz⟩
        simp only [nonSpatialPadCheck, h0, h1, h2, hv, Option.bind_eq_bind, Option.some_bind,
          hz0, hz1, hz2]
        simp [hnz]
      · simp only [nonSpatialPadCheck, h0, h1, h2, Option.bind_eq_bind, Option.some_bind,
          hz0, hz1]
        simp [hz2]
    · simp only [nonSpatialPadCheck, h0, h1, Option.bind_eq_bind, Option.some_bind, hz0]
      simp [hz1]
  · simp only [nonSpatialPadCheck, h0, Option.bind_eq_bind, Option.some_bind]
    simp [hz0]

theorem nonSpatialPadCheck_isSome_of_neg (p : List Int)
    (hneg : ∃ v ∈ p, v < 0) :
    ∃ b, nonSpatialPadCheck p p.length = some b := by
  rcases hneg with ⟨v, hmem, hvneg⟩
  rcases List.mem_iff_getElem?.mp hmem with ⟨j, hj⟩
  have hjlt : j < p.length := lt_length_of_getElem?_eq_some hj
  have hjv : p[j] = v := by
    rcases List.getElem?_eq_some.mp hj with ⟨h1, h2⟩
    exact h2
  have hpos : 0 < p.length := Nat.lt_of_le_of_lt (Nat.zero_le _) hjlt
  have h0 : p[0]? = some p[0] := List.getElem?_eq_getElem hpos
  by_cases hz0 : p[0] = 0
  · have hj0 : j ≠ 0 := by
      intro hh
      subst hh
      omega
    have hlen2 : 1 < p.length := by omega
    have h1 : p[1]? = some p[1] := List.getElem?_eq_getElem hlen2
    by_cases hz1 : p[1] = 0
    · have hj1 : j ≠ 1 := by
        intro hh
        subst hh
        omega
      have hlen3 : 2 < p.length := by omega
      have hq2 : p.length / 2 < p.length := by omega
      have hq3 : p.length / 2 + 1 < p.length := by omega
      have h2 : p[p.length / 2]? = some p[p.length / 2] := List.getElem?_eq_getElem hq2
      have h3 : p[p.length / 2 + 1]? = some p[p.length / 2 + 1] := List.getElem?_eq_getElem hq3
      by_cases hz2 : p[p.length / 2] = 0
      · by_cases hz3 : p[p.length / 2 + 1] = 0
        · refine ⟨false, ?_⟩
          simp only [nonSpatialPadCheck, h0, h1, h2, h3, Option.bind_eq_bind, Option.some_bind]
          simp [hz0, hz1, hz2, hz3]
        · refine ⟨true, ?_⟩
          simp only [nonSpatialPadCheck, h0, h1, h2, h3, Option.bind_eq_bind, Option.some_bind]
          simp [hz0, hz1, hz2, hz3]
      · refine ⟨true, ?_⟩
        simp only [nonSpatialPadCheck, h0, h1, h2, Option.bind_eq_bind, Option.some_bind]
        simp [hz0, hz1, hz2]
    · refine ⟨true, ?_⟩
      simp only [nonSpatialPadCheck, h0, h1, Option.bind_eq_bind, Option.some_bind]
      simp [hz0, hz1]
  · refine ⟨true, ?_⟩
    simp only [nonSpatialPadCheck, h0, Option.bind_eq_bind, Option.some_bind]
    simp [hz0]

theorem padFusionApply_of_guard (g : Graph) (n : Node) (p : List Int)
    (hres : resolvePads g n = some p)
    (hchk : nonSpatialPadCheck p (p.length % 4294967296) = some true ∨
            (nonSpatialPadCheck p (p.length % 4294967296) = some false ∧
             p.any (fun v => decide (v < 0)) = true)) :
    padFusionApply g n = some (g, RewriteRuleEffect.kNone) := by
  rcases hchk with hchk | ⟨hchk, hany⟩
  · simp only [padFusionApply, hres, hchk, Option.bind_eq_bind, Option.some_bind]
    simp
  · simp only [padFusionApply, hres, hchk, Option.bind_eq_bind, Option.some_bind]
    simp [hany]

theorem mergeLoop_spec (p : List Int) (rank : Nat) (hrank : 2 ≤ rank)
    (hp : p.length = 2 * rank) :
    ∀ (fuel k : Nat) (acc : List Int),
      2 ≤ k → k + fuel = rank → acc.length = 2 * (rank - 2) →
      ∃ res, mergeLoop p (2 * rank) (2 * (rank - 2)) fuel k acc = some res ∧
        res.length = 2 * (rank - 2) ∧
        ∀ i, i < 2 * (rank - 2) →
          res[i]? = some (acc.getD i 0 +
            (if k - 2 ≤ i ∧ i < rank - 2 then p.getD (i + 2) 0
             else if rank - 2 + (k - 2) ≤ i then p.getD (i + 4) 0 else 0)) := by
  intro fuel
  induction fuel with
  | zero =>
    intro k acc hk hkf hacc
    refine ⟨acc, by simp [mergeLoop], hacc, ?_⟩
    intro i hi
    have hc1 : ¬ (k - 2 ≤ i ∧ i < rank - 2) := by omega
    have hc2 : ¬ (rank - 2 + (k - 2) ≤ i) := by omega
    have hilt : i < acc.length := by omega
    rw [List.getElem?_eq_getElem hilt, if_neg hc1, if_neg hc2,
      List.getD_eq_getElem?_getD, List.getElem?_eq_getElem hilt]
    simp
  | succ fuel ih =>
    intro k acc hk hkf hacc
    have hklt : k < rank := by omega
    have hrank3 : 3 ≤ rank := by omega
    have hps2 : 2 * rank / 2 = rank := by omega
    have hcps2 : 2 * (rank - 2) / 2 = rank - 2 := by omega
    have hpk : p[k]? = some (p.getD k 0) := by
      have hlt : k < p.length := by omega
      rw [List.getElem?_eq_getElem hlt, List.getD_eq_getElem?_getD,
        List.getElem?_eq_getElem hlt]
      simp
    have hacclt : k - 2 < acc.length := by omega
    have hck : acc[k - 2]? = some (acc.getD (k - 2) 0) := by
      rw [List.getElem?_eq_getElem hacclt, List.getD_eq_getElem?_getD,
        List.getElem?_eq_getElem hacclt]
      simp
    have hpmk : p[k + 2 * rank / 2]? = some (p.getD (k + rank) 0) := by
      rw [hps2]
      have hlt : k + rank < p.length := by omega
      rw [List.getElem?_eq_getElem hlt, List.getD_eq_getElem?_getD,
        List.getElem?_eq_getElem hlt]
      simp
    have hmci : k - 2 + 2 * (rank - 2) / 2 = k + rank - 4 := by omega
    have hmcilt : k + rank - 4 < acc.length := by omega
    have hne : k - 2 ≠ k + rank - 4 := by omega
    have hcm : (acc.set (k - 2) (acc.getD (k - 2) 0 + p.getD k 0))[k - 2 + 2 * (rank - 2) / 2]? =
        some (acc.getD (k + rank - 4) 0) := by
      rw [hmci, List.getElem?_set_ne hne, List.getElem?_eq_getElem hmcilt,
        List.getD_eq_getElem?_getD, List.getElem?_eq_getElem hmcilt]
      simp
    simp only [mergeLoop, hpk, hck, hpmk, hcm, Option.bind_eq_bind, Option.some_bind]
    set acc2 := (acc.set (k - 2) (acc.getD (k - 2) 0 + p.getD k 0)).set
        (k - 2 + 2 * (rank - 2) / 2) (acc.getD (k + rank - 4) 0 + p.getD (k + rank) 0) with hacc2
    have hacc2len : acc2.length = 2 * (rank - 2) := by
      rw [hacc2]
      simp [hacc]
    rcases ih (k + 1) acc2 (by omega) (by omega) hacc2len with ⟨res, hres, hreslen, hresval⟩
    refine ⟨res, hres, hreslen, ?_⟩
    intro i hi
    rw [hresval i hi]
    congr 1
    have hacc2get : acc2.getD i 0 =
        if i = k - 2 then acc.getD i 0 + p.getD k 0
        else if i = k + rank - 4 then acc.getD i 0 + p.getD (k + rank) 0
        else acc.getD i 0 := by
      rw [hacc2, hmci]
      by_cases hm : i = k + rank - 4
      · subst hm
        rw [List.getD_eq_getElem?_getD,
          List.getElem?_set_eq_of_lt _ (by rw [List.length_set]; exact hmcilt)]
        rw [if_neg (by omega : ¬ (k + rank - 4 = k - 2)), if_pos rfl]
        simp
      · by_cases hb : i = k - 2
        · subst hb
          rw [List.getD_eq_getElem?_getD, List.getElem?_set_ne (by omega),
            List.getElem?_set_eq_of_lt _ hacclt, if_pos rfl]
          simp
        · rw [List.getD_eq_getElem?_getD, List.getElem?_set_ne (by omega),
            List.getElem?_set_ne (by omega), if_neg hb, if_neg hm,
            List.getD_eq_getElem?_getD]
    rw [hacc2get]
    by_cases he1 : i = k - 2
    · subst he1
      rw [if_pos rfl, show k - 2 + 2 = k from by omega]
      have c1 : k - 2 ≤ k - 2 ∧ k - 2 < rank - 2 := by omega
      have c2 : ¬ (k + 1 - 2 ≤ k - 2 ∧ k - 2 < rank - 2) := by omega
      have c3 : ¬ (rank - 2 + (k + 1 - 2) ≤ k - 2) := by omega
      rw [if_neg c2, if_neg c3, if_pos c1]
      omega
    · rw [if_neg he1]
      by_cases he2 : i = k + rank - 4
      · subst he2
        rw [if_pos rfl, show k + rank - 4 + 4 = k + rank from by omega]
        have c1 : ¬ (k + 1 - 2 ≤ k + rank - 4 ∧ k + rank - 4 < rank - 2) := by omega
        have c2 : ¬ (rank - 2 + (k + 1 - 2) ≤ k + rank - 4) := by omega
        have c3 : ¬ (k - 2 ≤ k + rank - 4 ∧ k + rank - 4 < rank - 2) := by omega
        have c4 : rank - 2 + (k - 2) ≤ k + rank - 4 := by omega
        rw [if_neg c1, if_neg c2, if_neg c3, if_pos c4]
        omega
      · rw [if_neg he2]
        by_cases hc1 : k - 2 ≤ i ∧ i < rank - 2
        · have hc1' : k + 1 - 2 ≤ i ∧ i < rank - 2 := by omega
          rw [if_pos hc1, if_pos hc1']
        · have hc1' : ¬ (k + 1 - 2 ≤ i ∧ i < rank - 2) := by omega
          by_cases hc2 : rank - 2 + (k - 2) ≤ i
          · have hc2' : rank - 2 + (k + 1 - 2) ≤ i := by omega
            rw [if_neg hc1, if_pos hc2, if_neg hc1', if_pos hc2']
          · have hc2' : ¬ (rank - 2 + (k + 1 - 2) ≤ i) := by omega
            rw [if_neg hc1, if_neg hc2, if_neg hc1', if_neg hc2']

theorem lookup_setAttr_self (l : List (String × AttrValue)) (k : String) (v : AttrValue) :
    (setAttr l k v).lookup k = some v := by
  induction l with
  | nil => simp [setAttr, List.lookup]
  | cons h t ih =>
    obtain ⟨k', w⟩ := h
    by_cases hk : k' = k
    · subst hk
      simp [setAttr, List.lookup]
    · have hbeq : (k == k') = false := beq_eq_false_iff_ne.mpr (Ne.symm hk)
      simp [setAttr, hk, List.lookup, hbeq, ih]

theorem lookup_setAttr_ne (l : List (String × AttrValue)) (k k' : String) (v : AttrValue)
    (h : k' ≠ k) : (setAttr l k v).lookup k' = l.lookup k' := by
  have hbeq : (k' == k) = false := beq_eq_false_iff_ne.mpr h
  induction l with
  | nil => simp [setAttr, List.lookup, hbeq]
  | cons hd t ih =>
    obtain ⟨k0, w⟩ := hd
    by_cases hk : k0 = k
    · subst hk
      simp [setAttr, List.lookup, hbeq]
    · simp [setAttr, hk, List.lookup, ih]

theorem attrFind_addAttribute_self (n : Node) (k : String) (v : AttrValue) :
    attrFind (n.addAttribute k v) k = some v := by
  simp [attrFind, Node.addAttribute, lookup_setAttr_self]

theorem attrFind_addAttribute_ne (n : Node) (k k' : String) (v : AttrValue) (h : k' ≠ k) :
    attrFind (n.addAttribute k v) k' = attrFind n k' := by
  simp [attrFind, Node.addAttribute, lookup_setAttr_ne _ _ _ _ h]

theorem padsOf_addAttribute_pads (n : Node) (v : List Int) :
    padsOf (n.addAttribute "pads" (AttrValue.ints v)) = v := by
  simp [padsOf, attrFind_addAttribute_self, AttrValue.intsval]

theorem specMergedPads_length (base p : List Int) (rank : Nat) :
    (specMergedPads base p rank).length = 2 * (rank - 2) := by
  simp [specMergedPads]

theorem addAttribute_opType (n : Node) (k : String) (v : AttrValue) :
    (n.addAttribute k v).opType = n.opType := rfl

theorem padsOf_addAttribute_cip (n : Node) (v : AttrValue) :
    padsOf (n.addAttribute "count_include_pad" v) = padsOf n := by
  have h : ("pads" : String) ≠ "count_include_pad" := by decide
  simp [padsOf, attrFind_addAttribute_ne _ _ _ _ h]

theorem updatePaddingAttribute_spec (child : Node) (p : List Int) (rank : Nat)
    (hrank : 2 ≤ rank) (hbound : 2 * rank < 4294967296) (hp : p.length = 2 * rank)
    (hold : padsOf child = [] ∨ (padsOf child).length = 2 * (rank - 2)) :
    ∃ child', updatePaddingAttribute child p (2 * rank) = some child' ∧
      padsOf child' =
        specMergedPads
          (if padsOf child = [] then List.replicate (2 * (rank - 2)) 0 else padsOf child)
          p rank ∧
      child'.index = child.index ∧ child'.opType = child.opType ∧
      child'.inputDefs = child.inputDefs ∧ child'.outputDefs = child.outputDefs ∧
      (child.opType = "AveragePool" →
        attrFind child' "count_include_pad" = some (AttrValue.int 1)) := by
  set base := (if padsOf child = [] then List.replicate (2 * (rank - 2)) (0 : Int)
    else padsOf child) with hbase
  have hbaselen : base.length = 2 * (rank - 2) := by
    rw [hbase]
    rcases hold with h | h
    · simp [h]
    · by_cases hz : padsOf child = []
      · simp [hz]
      · simp [hz, h]
  obtain ⟨res, hml, hreslen, hresval⟩ :=
    mergeLoop_spec p rank hrank hp (rank - 2) 2 base (le_refl 2) (by omega) hbaselen
  have hresspec : res = specMergedPads base p rank := by
    apply List.ext_getElem?
    intro i
    by_cases hi : i < 2 * (rank - 2)
    · rw [hresval i hi, specMergedPads, List.getElem?_map, List.getElem?_range hi]
      rw [Option.map_some']
      congr 1
      by_cases hc : i < rank - 2
      · have hc2 : 2 - 2 ≤ i ∧ i < rank - 2 := by omega
        rw [if_pos hc2, if_pos hc]
      · have hc2 : ¬ (2 - 2 ≤ i ∧ i < rank - 2) := by omega
        have hc3 : rank - 2 + (2 - 2) ≤ i := by omega
        rw [if_neg hc2, if_pos hc3, if_neg hc]
    · rw [List.getElem?_eq_none (by omega),
        List.getElem?_eq_none (by rw [specMergedPads_length]; omega)]
  have hm4 : (2 * rank + 4294967292) % 4294967296 = 2 * (rank - 2) := by omega
  have hfuel : 2 * rank / 2 - 2 = rank - 2 := by omega
  have hcpsmod : 2 * (rank - 2) % 4294967296 = 2 * (rank - 2) :=
    Nat.mod_eq_of_lt (by omega)
  rcases hfind : attrFind child "pads" with _ | a
  · -- pads attribute absent: reset path
    have hnil : padsOf child = [] := by simp [padsOf, hfind]
    have hb : base = List.replicate (2 * (rank - 2)) 0 := by rw [hbase, if_pos hnil]
    have hml' : mergeLoop p (2 * rank) (2 * (rank - 2)) (rank - 2) 2
        (List.replicate (2 * (rank - 2)) 0) = some res := by rw [← hb]; exact hml
    simp only [updatePaddingAttribute, hfind, eq_self_iff_true, if_true,
      padsOf_addAttribute_pads, hm4, List.length_replicate, hcpsmod, hfuel, hml',
      Option.bind_eq_bind, Option.some_bind, addAttribute_opType]
    by_cases havg : child.opType = "AveragePool"
    · have hc : (child.opType == "AveragePool") = true := beq_iff_eq.mpr havg
      rw [if_pos hc]
      refine ⟨_, rfl, ?_, rfl, rfl, rfl, rfl, fun _ => attrFind_addAttribute_self _ _ _⟩
      rw [padsOf_addAttribute_cip, padsOf_addAttribute_pads, hresspec]
    · have hc : ¬ ((child.opType == "AveragePool") = true) := by
        rw [beq_eq_false_iff_ne.mpr havg]
        simp
      rw [if_neg hc]
      refine ⟨_, rfl, ?_, rfl, rfl, rfl, rfl, fun h => absurd h havg⟩
      rw [padsOf_addAttribute_pads, hresspec]
  · -- pads attribute present
    have hpval : padsOf child = a.intsval := by simp [padsOf, hfind]
    by_cases hE : a.intsval = []
    · -- present but empty: reset path
      have hnil : padsOf child = [] := by rw [hpval, hE]
      have hb : base = List.replicate (2 * (rank - 2)) 0 := by rw [hbase, if_pos hnil]
      have hml' : mergeLoop p (2 * rank) (2 * (rank - 2)) (rank - 2) 2
          (List.replicate (2 * (rank - 2)) 0) = some res := by rw [← hb]; exact hml
      have hEb : a.intsval.isEmpty = true := by simp [hE]
      simp only [updatePaddingAttribute, hfind, hEb, eq_self_iff_true, if_true,
        padsOf_addAttribute_pads, hm4, List.length_replicate, hcpsmod, hfuel, hml',
        Option.bind_eq_bind, Option.some_bind, addAttribute_opType]
      by_cases havg : child.opType = "AveragePool"
      · have hc : (child.opType == "AveragePool") = true := beq_iff_eq.mpr havg
        rw [if_pos hc]
        refine ⟨_, rfl, ?_, rfl, rfl, rfl, rfl, fun _ => attrFind_addAttribute_self _ _ _⟩
        rw [padsOf_addAttribute_cip, padsOf_addAttribute_pads, hresspec]
      · have hc : ¬ ((child.opType == "AveragePool") = true) := by
          rw [beq_eq_false_iff_ne.mpr havg]
          simp
        rw [if_neg hc]
        refine ⟨_, rfl, ?_, rfl, rfl, rfl, rfl, fun h => absurd h havg⟩
        rw [padsOf_addAttribute_pads, hresspec]
    · -- present and nonempty: keep path
      have hnil' : ¬ padsOf child = [] := by rw [hpval]; exact hE
      have hplen : (padsOf child).length = 2 * (rank - 2) := by
        rcases hold with h | h
        · exact absurd h hnil'
        · exact h
      have hb : base = padsOf child := by rw [hbase, if_neg hnil']
      have halen : a.intsval.length = 2 * (rank - 2) := by rw [← hpval]; exact hplen
      have hml' : mergeLoop p (2 * rank) (2 * (rank - 2)) (rank - 2) 2 a.intsval
          = some res := by rw [← hpval, ← hb]; exact hml
      have hEb : a.intsval.isEmpty = false := by
        cases hI : a.intsval
        · exact absurd hI hE
        · simp [hI]
      simp only [updatePaddingAttribute, hfind, hEb, Bool.false_eq_true, if_false,
        hpval, halen, hcpsmod, hfuel, hml',
        Option.bind_eq_bind, Option.some_bind, addAttribute_opType]
      by_cases havg : child.opType = "AveragePool"
      · have hc : (child.opType == "AveragePool") = true := beq_iff_eq.mpr havg
        rw [if_pos hc]
        refine ⟨_, rfl, ?_, rfl, rfl, rfl, rfl, fun _ => attrFind_addAttribute_self _ _ _⟩
        rw [padsOf_addAttribute_cip, padsOf_addAttribute_pads, hresspec, hb]
      · have hc : ¬ ((child.opType == "AveragePool") = true) := by
          rw [beq_eq_false_iff_ne.mpr havg]
          simp
        rw [if_neg hc]
        refine ⟨_, rfl, ?_, rfl, rfl, rfl, rfl, fun h => absurd h havg⟩
        rw [padsOf_addAttribute_pads, hresspec, hb]

theorem satisfyCondition_inv (g : Graph) (n : Node) (h : satisfyCondition g n = true) :
    isSupportedOptypeVersionAndDomain n "Pad" [1, 2, 11, 13, 18, 19] = true ∧
    g.outputEdgesCount n.index = 1 ∧
    n.inputDefs.length ≤ 3 ∧
    g.nodeProducesGraphOutput n = false ∧
    (∀ a, attrFind n "mode" = some a → a.sval = "constant") ∧
    childCheck g n = true ∧
    (11 ≤ n.sinceVersion →
      nodeArgIsConstant g (inputDef n 1) = true ∧
      (2 < n.inputDefs.length →
        ∃ ini, g.getConstantInitializer (inputDef n 2).name = some ini ∧
          ∀ b ∈ ini.rawBytes, b = 0)) ∧
    (n.sinceVersion < 11 → ∀ a, attrFind n "value" = some a → a.fval = 0) := by
  unfold satisfyCondition at h
  by_cases h1 : (!(isSupportedOptypeVersionAndDomain n "Pad" [1, 2, 11, 13, 18, 19]) ||
      g.outputEdgesCount n.index != 1 || decide (n.inputDefs.length > 3)) = true
  · rw [if_pos h1] at h
    cases h
  rw [if_neg h1] at h
  simp only [Bool.or_eq_true, Bool.not_eq_true', bne_iff_ne, decide_eq_true_eq, not_or] at h1
  obtain ⟨⟨hPad', hEdges'⟩, hInputs'⟩ := h1
  have hPad : isSupportedOptypeVersionAndDomain n "Pad" [1, 2, 11, 13, 18, 19] = true := by
    cases hx : isSupportedOptypeVersionAndDomain n "Pad" [1, 2, 11, 13, 18, 19]
    · exact absurd hx hPad'
    · rfl
  have hEdges : g.outputEdgesCount n.index = 1 := by
    by_contra hc
    exact hEdges' hc
  have hInputs : n.inputDefs.length ≤ 3 := by omega
  by_cases h2 : g.nodeProducesGraphOutput n = true
  · rw [if_pos h2] at h
    cases h
  rw [if_neg h2] at h
  have hGO : g.nodeProducesGraphOutput n = false := by
    cases hx : g.nodeProducesGraphOutput n
    · rfl
    · exact absurd hx h2
  by_cases h3 : (match attrFind n "mode" with
      | some a => decide (a.sval ≠ "constant")
      | none => false) = true
  · rw [if_pos h3] at h
    cases h
  rw [if_neg h3] at h
  have hMode : ∀ a, attrFind n "mode" = some a → a.sval = "constant" := by
    intro a ha
    simp only [ha, decide_eq_true_eq] at h3
    by_contra hc
    exact h3 hc
  by_cases hv : n.sinceVersion ≥ 11
  · rw [if_pos hv] at h
    by_cases h5 : (!(nodeArgIsConstant g (inputDef n 1)) ||
        (decide (n.inputDefs.length > 2) && !(nodeArgIsConstant g (inputDef n 2)))) = true
    · rw [if_pos h5] at h
      cases h
    rw [if_neg h5] at h
    simp only [Bool.or_eq_true, Bool.not_eq_true', Bool.and_eq_true, decide_eq_true_eq,
      not_or, not_and] at h5
    obtain ⟨hc1', hc2'⟩ := h5
    have hc1 : nodeArgIsConstant g (inputDef n 1) = true := by
      cases hx : nodeArgIsConstant g (inputDef n 1)
      · exact absurd hx hc1'
      · rfl
    by_cases h6 : n.inputDefs.length > 2
    · rw [if_pos h6] at h
      have hc2 : nodeArgIsConstant g (inputDef n 2) = true := by
        cases hx : nodeArgIsConstant g (inputDef n 2)
        · exact absurd hx (hc2' h6)
        · rfl
      rcases hini : g.getConstantInitializer (inputDef n 2).name with _ | ini
      · rw [nodeArgIsConstant, hini] at hc2
        cases hc2
      · simp only [hini] at h
        by_cases h7 : (ini.rawBytes.any fun b => decide (b ≠ 0)) = true
        · rw [if_pos h7] at h
          cases h
        rw [if_neg h7] at h
        have hbytes : ∀ b ∈ ini.rawBytes, b = 0 := by
          simp only [List.any_eq_true, decide_eq_true_eq, not_exists, not_and] at h7
          intro b hb
          by_contra hc
          exact h7 b hb hc
        exact ⟨hPad, hEdges, hInputs, hGO, hMode, h,
          fun _ => ⟨hc1, fun _ => ⟨ini, rfl, hbytes⟩⟩,
          fun hlt => absurd hv (by omega)⟩
    · rw [if_neg h6] at h
      exact ⟨hPad, hEdges, hInputs, hGO, hMode, h,
        fun _ => ⟨hc1, fun hgt => absurd hgt h6⟩,
        fun hlt => absurd hv (by omega)⟩
  · rw [if_neg hv] at h
    by_cases h8 : (match attrFind n "value" with
        | some a => decide (a.fval ≠ 0)
        | none => false) = true
    · rw [if_pos h8] at h
      cases h
    rw [if_neg h8] at h
    have hVal : ∀ a, attrFind n "value" = some a → a.fval = 0 := by
      intro a ha
      simp only [ha, decide_eq_true_eq] at h8
      by_contra hc
      exact h8 hc
    exact ⟨hPad, hEdges, hInputs, hGO, hMode, h,
      fun hge => absurd hge hv, fun _ => hVal⟩

theorem verifyNotCastChild_inv (t : Node) (h : verifyNotCastChild t = true) :
    (isSupportedOptypeVersionAndDomain t "Conv" [1, 11] = true ∨
     isSupportedOptypeVersionAndDomain t "AveragePool" [7, 10, 11, 19] = true ∨
     isSupportedOptypeVersionAndDomain t "MaxPool" [1, 8, 10, 11, 12] = true) ∧
    t.outputDefs.length ≤ 1 ∧
    (∀ a, attrFind t "auto_pad" = some a → a.sval = "NOTSET") := by
  unfold verifyNotCastChild at h
  by_cases h1 : (!(isSupportedOptypeVersionAndDomain t "Conv" [1, 11]) &&
      !(isSupportedOptypeVersionAndDomain t "AveragePool" [7, 10, 11, 19]) &&
      !(isSupportedOptypeVersionAndDomain t "MaxPool" [1, 8, 10, 11, 12])) = true
  · rw [if_pos h1] at h
    cases h
  rw [if_neg h1] at h
  have hop : isSupportedOptypeVersionAndDomain t "Conv" [1, 11] = true ∨
      isSupportedOptypeVersionAndDomain t "AveragePool" [7, 10, 11, 19] = true ∨
      isSupportedOptypeVersionAndDomain t "MaxPool" [1, 8, 10, 11, 12] = true := by
    simp only [Bool.and_eq_true, Bool.not_eq_true', not_and] at h1
    cases hA : isSupportedOptypeVersionAndDomain t "Conv" [1, 11]
    · cases hB : isSupportedOptypeVersionAndDomain t "AveragePool" [7, 10, 11, 19]
      · cases hC : isSupportedOptypeVersionAndDomain t "MaxPool" [1, 8, 10, 11, 12]
        · exact absurd hC (h1 ⟨hA, hB⟩)
        · exact Or.inr (Or.inr rfl)
      · exact Or.inr (Or.inl rfl)
    · exact Or.inl rfl
  by_cases h2 : t.outputDefs.length > 1
  · rw [if_pos h2] at h
    cases h
  rw [if_neg h2] at h
  by_cases h3 : (match attrFind t "auto_pad" with
      | some a => decide (a.sval ≠ "NOTSET")
      | none => false) = true
  · rw [if_pos h3] at h
    cases h
  rw [if_neg h3] at h
  have hap : ∀ a, attrFind t "auto_pad" = some a → a.sval = "NOTSET" := by
    intro a ha
    simp only [ha, decide_eq_true_eq] at h3
    by_contra hc
    exact h3 hc
  exact ⟨hop, by omega, hap⟩

theorem childCheck_inv (g : Graph) (n : Node) (h : childCheck g n = true) :
    ∃ c, g.outputNodesBegin n.index = some c ∧
      ((isSupportedOptypeVersionAndDomain c "Cast" [1, 6, 9, 13] = true ∧
        g.outputEdgesCount c.index = 1 ∧ g.nodeProducesGraphOutput c = false ∧
        ∃ t, g.outputNodesBegin c.index = some t ∧ verifyNotCastChild t = true) ∨
       (isSupportedOptypeVersionAndDomain c "Cast" [1, 6, 9, 13] = false ∧
        verifyNotCastChild c = true)) := by
  unfold childCheck at h
  rcases hc : g.outputNodesBegin n.index with _ | c
  · simp only [hc] at h
    cases h
  · simp only [hc] at h
    refine ⟨c, rfl, ?_⟩
    by_cases hcast : isSupportedOptypeVersionAndDomain c "Cast" [1, 6, 9, 13] = true
    · rw [if_pos hcast] at h
      by_cases he : (g.outputEdgesCount c.index != 1) = true
      · rw [if_pos he] at h
        cases h
      rw [if_neg he] at h
      have hcount : g.outputEdgesCount c.index = 1 := by
        simpa [bne_iff_ne] using he
      by_cases hgo : g.nodeProducesGraphOutput c = true
      · rw [if_pos hgo] at h
        cases h
      rw [if_neg hgo] at h
      have hgof : g.nodeProducesGraphOutput c = false := by
        cases hx : g.nodeProducesGraphOutput c
        · rfl
        · exact absurd hx hgo
      rcases ht : g.outputNodesBegin c.index with _ | t
      · simp only [ht] at h
        cases h
      · simp only [ht] at h
        exact Or.inl ⟨hcast, hcount, hgof, t, rfl, h⟩
    · rw [if_neg hcast] at h
      have hcastf : isSupportedOptypeVersionAndDomain c "Cast" [1, 6, 9, 13] = false := by
        cases hx : isSupportedOptypeVersionAndDomain c "Cast" [1, 6, 9, 13]
        · rfl
        · exact absurd hx hcast
      exact Or.inr ⟨hcastf, h⟩

theorem terminal_of_satisfy (g : Graph) (n : Node) (h : satisfyCondition g n = true) :
    ∃ t, terminalConsumer g n = some t ∧ verifyNotCastChild t = true := by
  obtain ⟨-, -, -, -, -, hcc, -, -⟩ := satisfyCondition_inv g n h
  obtain ⟨c, hc, hcase⟩ := childCheck_inv g n hcc
  rcases hcase with ⟨hcast, -, -, t, ht, hv⟩ | ⟨hcast, hv⟩
  · refine ⟨t, ?_, hv⟩
    simp only [terminalConsumer, hc]
    rw [if_pos hcast]
    exact ht
  · refine ⟨c, ?_, hv⟩
    simp only [terminalConsumer, hc]
    simp [hcast]

theorem satisfyCondition_false_of_terminal (g : Graph) (n t : Node)
    (ht : terminalConsumer g n = some t) (hvf : verifyNotCastChild t = false) :
    satisfyCondition g n = false := by
  cases hx : satisfyCondition g n
  · rfl
  · obtain ⟨t', ht', hv⟩ := terminal_of_satisfy g n hx
    rw [ht] at ht'
    cases ht'
    rw [hvf] at hv
    cases hv

theorem verifyNotCastChild_avgpool_reject (t : Node) (a ci : AttrValue)
    (hop : t.opType = "AveragePool")
    (hpads : attrFind t "pads" = some a) (hne : a.intsval ≠ [])
    (hnz : ∃ v ∈ a.intsval, v ≠ 0)
    (hci : attrFind t "count_include_pad" = some ci) (hciz : ci.ival = 0) :
    verifyNotCastChild t = false := by
  unfold verifyNotCastChild
  by_cases h1 : (!(isSupportedOptypeVersionAndDomain t "Conv" [1, 11]) &&
      !(isSupportedOptypeVersionAndDomain t "AveragePool" [7, 10, 11, 19]) &&
      !(isSupportedOptypeVersionAndDomain t "MaxPool" [1, 8, 10, 11, 12])) = true
  · rw [if_pos h1]
  · rw [if_neg h1]
    by_cases h2 : t.outputDefs.length > 1
    · rw [if_pos h2]
    · rw [if_neg h2]
      by_cases h3 : (match attrFind t "auto_pad" with
          | some a => decide (a.sval ≠ "NOTSET")
          | none => false) = true
      · rw [if_pos h3]
      · rw [if_neg h3]
        rw [if_pos (beq_iff_eq.mpr hop)]
        have hEb : a.intsval.isEmpty = false := by
          cases hI : a.intsval
          · exact absurd hI hne
          · simp [hI]
        have hany : (a.intsval.any fun v => decide (v ≠ 0)) = true := by
          rcases hnz with ⟨v, hm, hv⟩
          exact List.any_eq_true.mpr ⟨v, hm, by simp [hv]⟩
        rw [if_pos ?_]
        simp only [hpads, hci]
        simp only [hEb, hany, Bool.not_false, Bool.true_and, decide_eq_true_eq,
          Bool.and_eq_true]
        exact hciz

theorem getNode_index (g : Graph) (i : Nat) (m : Node) (h : g.getNode i = some m) :
    m.index = i := by
  have := List.find?_some h
  simpa using this

theorem getNode_outputNodesBegin (g : Graph) (i : Nat) (c : Node)
    (h : g.outputNodesBegin i = some c) : g.getNode c.index = some c := by
  unfold Graph.outputNodesBegin at h
  rcases he : (g.outputEdges i).head? with _ | e
  · rw [he] at h
    cases h
  · rw [he] at h
    simp only [Option.bind_eq_bind, Option.some_bind] at h
    have hidx : c.index = e.dst := getNode_index _ _ _ h
    rw [hidx]
    exact h

theorem find?_map_update_self (l : List Node) (i : Nat) (n' : Node) (hn : n'.index = i)
    (m : Node) (h : l.find? (fun m => m.index == i) = some m) :
    (l.map (fun m => if m.index = i then n' else m)).find? (fun m => m.index == i) = some n' := by
  induction l with
  | nil => cases h
  | cons hd t ih =>
    by_cases hh : hd.index = i
    · simp only [List.map_cons, if_pos hh, List.find?_cons, beq_iff_eq, hn, if_pos rfl]
      simp
    · simp only [List.map_cons, if_neg hh, List.find?_cons] at h ⊢
      have hb : (hd.index == i) = false := beq_eq_false_iff_ne.mpr hh
      rw [hb] at h ⊢
      simp only [List.find?] at h ⊢
      exact ih (by simpa using h)

theorem getNode_updateNode_self (g : Graph) (i : Nat) (n' : Node) (hn : n'.index = i)
    (m : Node) (h : g.getNode i = some m) :
    (g.updateNode i n').getNode i = some n' := by
  unfold Graph.getNode at h
  unfold Graph.getNode Graph.updateNode
  exact find?_map_update_self g.nodes i n' hn m h

theorem getNode_updateNode_ne (g : Graph) (i j : Nat) (n' : Node) (hn : n'.index = i)
    (h : j ≠ i) : (g.updateNode i n').getNode j = g.getNode j := by
  unfold Graph.getNode Graph.updateNode
  induction g.nodes with
  | nil => rfl
  | cons hd t ih =>
    by_cases hh : hd.index = i
    · simp only [List.map_cons, if_pos hh, List.find?_cons]
      have h1 : (n'.index == j) = false := beq_eq_false_iff_ne.mpr (by omega)
      have h2 : (hd.index == j) = false := beq_eq_false_iff_ne.mpr (by omega)
      rw [h1, h2]
      exact ih
    · simp only [List.map_cons, if_neg hh, List.find?_cons]
      cases hb : (hd.index == j)
      · exact ih
      · rfl

theorem getNode_removeNode_self (g : Graph) (i : Nat) :
    (g.removeNode i).getNode i = none := by
  unfold Graph.getNode Graph.removeNode
  simp only [List.find?_eq_none]
  intro x hx
  have := List.of_mem_filter hx
  simp only [bne_iff_ne, decide_eq_true_eq] at this
  simp [this]

theorem getNode_removeNode_ne (g : Graph) (i j : Nat) (h : j ≠ i) :
    (g.removeNode i).getNode j = g.getNode j := by
  unfold Graph.getNode Graph.removeNode
  induction g.nodes with
  | nil => rfl
  | cons hd t ih =>
    by_cases hh : hd.index = i
    · have hb : (hd.index != i) = false := by simp [hh]
      have h2 : (hd.index == j) = false := beq_eq_false_iff_ne.mpr (by omega)
      simp only [List.filter_cons, hb, if_false, List.find?_cons, h2]
      exact ih
    · have hb : (hd.index != i) = true := by simp [hh]
      simp only [List.filter_cons, hb, if_true, List.find?_cons]
      cases hx : (hd.index == j)
      · exact ih
      · rfl

theorem updatePaddingAttribute_fields (t : Node) (p : List Int) (s : Nat) (t' : Node)
    (h : updatePaddingAttribute t p s = some t') :
    t'.index = t.index ∧ t'.opType = t.opType ∧ t'.inputDefs = t.inputDefs ∧
    t'.outputDefs = t.outputDefs := by
  simp only [updatePaddingAttribute, Option.bind_eq_bind, Option.bind_eq_some] at h
  obtain ⟨merged, hm, hif⟩ := h
  split at hif <;> split at hif <;>
    (simp only [show ∀ x : Node, (pure x : Option Node) = some x from fun _ => rfl,
       Option.some.injEq] at hif;
     subst hif; exact ⟨rfl, rfl, rfl, rfl⟩)

theorem padFusionApply_success_inv (g : Graph) (n : Node) (gOut : Graph)
    (eff : RewriteRuleEffect) (p : List Int)
    (hres : resolvePads g n = some p)
    (hg1 : nonSpatialPadCheck p (p.length % 4294967296) = some false)
    (hg2 : p.any (fun v => decide (v < 0)) = false)
    (h : padFusionApply g n = some (gOut, eff)) :
    eff = RewriteRuleEffect.kRemovedCurrentNode ∧
    ∃ c0 target target' child2 g3 g4,
      g.outputNodesBegin n.index = some c0 ∧
      ((c0.opType = "Cast" ∧ ∃ t0, g.outputNodesBegin c0.index = some t0 ∧ target = t0) ∨
       (c0.opType ≠ "Cast" ∧ target = c0)) ∧
      updatePaddingAttribute target p (p.length % 4294967296) = some target' ∧
      (removeNodeOutputEdges (g.updateNode target.index target') n.index).getNode c0.index
        = some child2 ∧
      g3 = (removeNodeOutputEdges (g.updateNode target.index target') n.index).updateNode
        c0.index (replaceNodeInput child2 0 (inputDef n 0)) ∧
      ((c0.opType = "Cast" ∧ ∃ sh c3, (inputDef n 0).shape = some sh ∧
          g3.getNode c0.index = some c3 ∧ g4 = g3.updateNode c0.index (setOutputShape c3 sh)) ∨
       (c0.opType ≠ "Cast" ∧ g4 = g3)) ∧
      gOut = g4.removeNode n.index := by
  simp only [padFusionApply, hres, hg1, Option.bind_eq_bind, Option.some_bind] at h
  rw [if_neg Bool.false_ne_true, hg2, if_neg Bool.false_ne_true] at h
  rw [Option.bind_eq_some] at h
  obtain ⟨c0, hc0, h⟩ := h
  have hchild : g.getNode c0.index = some c0 := getNode_outputNodesBegin g n.index c0 hc0
  rw [hchild, Option.some_bind] at h
  by_cases hcast : (c0.opType == "Cast") = true
  · rw [if_pos hcast] at h
    rw [Option.bind_eq_some] at h
    obtain ⟨t0, ht0, h⟩ := h
    have ht0node : g.getNode t0.index = some t0 := getNode_outputNodesBegin g c0.index t0 ht0
    rw [ht0node, Option.some_bind] at h
    rw [Option.bind_eq_some] at h
    obtain ⟨target', hupd, h⟩ := h
    rw [Option.bind_eq_some] at h
    obtain ⟨child2, hchild2, h⟩ := h
    rw [if_pos hcast] at h
    rw [Option.bind_eq_some] at h
    obtain ⟨sh, hsh, h⟩ := h
    rw [Option.bind_eq_some] at h
    obtain ⟨c3, hc3, h⟩ := h
    simp only [Option.pure_def, Option.some_bind, Option.some.injEq, Prod.mk.injEq] at h
    obtain ⟨hgOut, heff⟩ := h
    exact ⟨heff.symm, c0, t0, target', child2, _, _, hc0,
      Or.inl ⟨beq_iff_eq.mp hcast, t0, ht0, rfl⟩, hupd, hchild2, rfl,
      Or.inl ⟨beq_iff_eq.mp hcast, sh, c3, hsh, hc3, rfl⟩, hgOut.symm⟩
  · rw [if_neg hcast] at h
    simp only [Option.pure_def, Option.some_bind] at h
    rw [Option.bind_eq_some] at h
    obtain ⟨target', hupd, h⟩ := h
    rw [Option.bind_eq_some] at h
    obtain ⟨child2, hchild2, h⟩ := h
    rw [if_neg hcast] at h
    simp only [Option.pure_def, Option.some_bind, Option.some.injEq, Prod.mk.injEq] at h
    obtain ⟨hgOut, heff⟩ := h
    exact ⟨heff.symm, c0, c0, target', child2, _, _, hc0,
      Or.inr ⟨fun hc => hcast (beq_iff_eq.mpr hc), rfl⟩, hupd, hchild2, rfl,
      Or.inr ⟨fun hc => hcast (beq_iff_eq.mpr hc), rfl⟩, hgOut.symm⟩

/-- Claim C2: a pad-value sequence that is nonzero at a batch/channel position
(index 0, 1, size/2 or size/2+1) or negative anywhere makes `Apply` return the
caller-initialized `kNone` effect with the graph returned entirely unchanged. -/
theorem claim_apply_nochange_on_nonspatial_or_negative (g : Graph) (n : Node) (p : List Int)
    (hres : resolvePads g n = some p)
    (hlen : p.length < 4294967296)
    (hcond : (∃ i v, (i = 0 ∨ i = 1 ∨ i = p.length / 2 ∨ i = p.length / 2 + 1) ∧
                p[i]? = some v ∧ v ≠ 0) ∨ ∃ v ∈ p, v < 0) :
    padFusionApply g n = some (g, RewriteRuleEffect.kNone) := by
  have hmod : p.length % 4294967296 = p.length := Nat.mod_eq_of_lt hlen
  apply padFusionApply_of_guard g n p hres
  rw [hmod]
  rcases hcond with ⟨i, v, hi, hv, hnz⟩ | hneg
  · left
    apply nonSpatialPadCheck_true
    rcases hi with rfl | rfl | rfl | rfl
    · exact Or.inl ⟨v, hv, hnz⟩
    · exact Or.inr (Or.inl ⟨v, hv, hnz⟩)
    · exact Or.inr (Or.inr (Or.inl ⟨v, hv, hnz⟩))
    · exact Or.inr (Or.inr (Or.inr ⟨v, hv, hnz⟩))
  · rcases nonSpatialPadCheck_isSome_of_neg p hneg with ⟨b, hb⟩
    cases b
    · right
      refine ⟨hb, ?_⟩
      rcases hneg with ⟨v, hm, hvn⟩
      exact List.any_eq_true.mpr ⟨v, hm, by simp [hvn]⟩
    · left
      exact hb

theorem claim_apply_nochange_witness :
    resolvePads exGraphNeg exPadNeg = some [0, 0, 1, -1, 0, 0, 1, 1] ∧
    padFusionApply exGraphNeg exPadNeg = some (exGraphNeg, RewriteRuleEffect.kNone) :=
  ⟨rfl, claim_apply_nochange_on_nonspatial_or_negative exGraphNeg exPadNeg
    [0, 0, 1, -1, 0, 0, 1, 1] rfl (by decide)
    (Or.inr ⟨-1, by decide, by decide⟩)⟩

/-- Claim C4 counterexample: the match predicate does not inspect pad values;
this pad node's sequence has a nonzero batch entry (index 0) yet
`SatisfyCondition` returns true. -/
theorem claim_match_ignores_pad_values_counterexample :
    resolvePads exGraphBatch exPadBatch = some [1, 0, 1, 1, 1, 0, 1, 1] ∧
    satisfyCondition exGraphBatch exPadBatch = true :=
  ⟨rfl, rfl⟩

/-- Claim C4 (amended): the batch/channel-zero validation lives in `Apply`,
not in the match predicate: a resolved pad sequence with a nonzero entry at
index 0, 1, size/2 or size/2+1 makes `Apply` return `kNone` with the graph
unchanged, before any mutation. -/
theorem claim_nonspatial_guard_in_apply (g : Graph) (n : Node) (p : List Int)
    (hres : resolvePads g n = some p)
    (hlen : p.length < 4294967296)
    (hcond : ∃ i v, (i = 0 ∨ i = 1 ∨ i = p.length / 2 ∨ i = p.length / 2 + 1) ∧
      p[i]? = some v ∧ v ≠ 0) :
    padFusionApply g n = some (g, RewriteRuleEffect.kNone) := by
  have hmod : p.length % 4294967296 = p.length := Nat.mod_eq_of_lt hlen
  apply padFusionApply_of_guard g n p hres
  rw [hmod]
  left
  apply nonSpatialPadCheck_true
  rcases hcond with ⟨i, v, hi, hv, hnz⟩
  rcases hi with rfl | rfl | rfl | rfl
  · exact Or.inl ⟨v, hv, hnz⟩
  · exact Or.inr (Or.inl ⟨v, hv, hnz⟩)
  · exact Or.inr (Or.inr (Or.inl ⟨v, hv, hnz⟩))
  · exact Or.inr (Or.inr (Or.inr ⟨v, hv, hnz⟩))

theorem claim_nonspatial_guard_in_apply_witness :
    padFusionApply exGraphBatch exPadBatch = some (exGraphBatch, RewriteRuleEffect.kNone) :=
  claim_nonspatial_guard_in_apply exGraphBatch exPadBatch [1, 0, 1, 1, 1, 0, 1, 1]
    rfl (by decide) ⟨0, 1, Or.inl rfl, by decide, by decide⟩

/-- Claim C9: the match predicate accepts only a Pad of a supported version in
the default domain, with exactly one outgoing edge, at most 3 declared inputs,
not producing a graph output, whose `mode` attribute (when present) is
"constant". -/
theorem claim_match_pad_preconditions (g : Graph) (n : Node)
    (h : satisfyCondition g n = true) :
    isSupportedOptypeVersionAndDomain n "Pad" [1, 2, 11, 13, 18, 19] = true ∧
    g.outputEdgesCount n.index = 1 ∧
    n.inputDefs.length ≤ 3 ∧
    g.nodeProducesGraphOutput n = false ∧
    (∀ a, attrFind n "mode" = some a → a.sval = "constant") := by
  obtain ⟨h1, h2, h3, h4, h5, -, -, -⟩ := satisfyCondition_inv g n h
  exact ⟨h1, h2, h3, h4, h5⟩

theorem claim_match_pad_preconditions_witness :
    satisfyCondition exGraphPadConv exPad = true ∧
    exPad.inputDefs.length ≤ 3 ∧
    exGraphPadConv.outputEdgesCount exPad.index = 1 :=
  ⟨rfl, (claim_match_pad_preconditions exGraphPadConv exPad rfl).2.2.1,
    (claim_match_pad_preconditions exGraphPadConv exPad rfl).2.1⟩

/-- Claim C6: for version ≥ 11, the match predicate requires input 1 to
resolve to a constant initializer, and a present third input to resolve to a
constant initializer whose raw bytes are all zero; for version < 11 it
requires the `value` attribute, when present, to equal 0.0. -/
theorem claim_match_constant_inputs (g : Graph) (n : Node)
    (h : satisfyCondition g n = true) :
    (11 ≤ n.sinceVersion →
      nodeArgIsConstant g (inputDef n 1) = true ∧
      (2 < n.inputDefs.length →
        ∃ ini, g.getConstantInitializer (inputDef n 2).name = some ini ∧
          ∀ b ∈ ini.rawBytes, b = 0)) ∧
    (n.sinceVersion < 11 → ∀ a, attrFind n "value" = some a → a.fval = 0) := by
  obtain ⟨-, -, -, -, -, -, h7, h8⟩ := satisfyCondition_inv g n h
  exact ⟨h7, h8⟩

theorem claim_match_constant_inputs_witness :
    satisfyCondition exGraphPad11 exPad11 = true ∧
    nodeArgIsConstant exGraphPad11 (inputDef exPad11 1) = true :=
  ⟨rfl, ((claim_match_constant_inputs exGraphPad11 exPad11 rfl).1 (by decide)).1⟩

/-- Claim C7: the match predicate walks through at most one supported Cast
(which must have one outgoing edge and not be a graph output) and applies the
terminal check to that cast's sole consumer, or else directly to the pad's
sole consumer; the terminal check requires Conv/AveragePool/MaxPool in the
supported version sets, a single declared output (given the schema guarantee
of at least one), and `auto_pad` absent or "NOTSET". -/
theorem claim_match_cast_walk_and_terminal :
    (∀ (g : Graph) (n c : Node), satisfyCondition g n = true →
      g.outputNodesBegin n.index = some c →
      isSupportedOptypeVersionAndDomain c "Cast" [1, 6, 9, 13] = true →
      g.outputEdgesCount c.index = 1 ∧ g.nodeProducesGraphOutput c = false ∧
      ∃ t, g.outputNodesBegin c.index = some t ∧ verifyNotCastChild t = true) ∧
    (∀ (g : Graph) (n c : Node), satisfyCondition g n = true →
      g.outputNodesBegin n.index = some c →
      isSupportedOptypeVersionAndDomain c "Cast" [1, 6, 9, 13] = false →
      verifyNotCastChild c = true) ∧
    (∀ t : Node, verifyNotCastChild t = true →
      (isSupportedOptypeVersionAndDomain t "Conv" [1, 11] = true ∨
       isSupportedOptypeVersionAndDomain t "AveragePool" [7, 10, 11, 19] = true ∨
       isSupportedOptypeVersionAndDomain t "MaxPool" [1, 8, 10, 11, 12] = true) ∧
      (1 ≤ t.outputDefs.length → t.outputDefs.length = 1) ∧
      (∀ a, attrFind t "auto_pad" = some a → a.sval = "NOTSET")) := by
  refine ⟨?_, ?_, ?_⟩
  · intro g n c hs hc hcast
    obtain ⟨-, -, -, -, -, hcc, -, -⟩ := satisfyCondition_inv g n hs
    obtain ⟨c', hc', hcase⟩ := childCheck_inv g n hcc
    rw [hc, Option.some.injEq] at hc'
    subst hc'
    rcases hcase with ⟨-, h2, h3, t, ht, hv⟩ | ⟨h1, -⟩
    · exact ⟨h2, h3, t, ht, hv⟩
    · rw [hcast] at h1
      cases h1
  · intro g n c hs hc hcast
    obtain ⟨-, -, -, -, -, hcc, -, -⟩ := satisfyCondition_inv g n hs
    obtain ⟨c', hc', hcase⟩ := childCheck_inv g n hcc
    rw [hc, Option.some.injEq] at hc'
    subst hc'
    rcases hcase with ⟨h1, -⟩ | ⟨-, hv⟩
    · rw [hcast] at h1
      cases h1
    · exact hv
  · intro t hv
    obtain ⟨h1, h2, h3⟩ := verifyNotCastChild_inv t hv
    exact ⟨h1, by omega, h3⟩

theorem claim_match_cast_walk_and_terminal_witness :
    satisfyCondition exGraphPadCastConv exPad = true ∧
    (exGraphPadCastConv.outputEdgesCount exCast.index = 1 ∧
     exGraphPadCastConv.nodeProducesGraphOutput exCast = false ∧
     ∃ t, exGraphPadCastConv.outputNodesBegin exCast.index = some t ∧
       verifyNotCastChild t = true) :=
  ⟨rfl, claim_match_cast_walk_and_terminal.1 exGraphPadCastConv exPad exCast rfl rfl rfl⟩

/-- Claim C8: an AveragePool terminal consumer with a non-empty `pads`
attribute containing a nonzero entry and an explicit `count_include_pad = 0`
fails the terminal check, and hence the match predicate returns false. -/
theorem claim_match_avgpool_reject :
    (∀ (t : Node) (a ci : AttrValue),
      t.opType = "AveragePool" →
      attrFind t "pads" = some a → a.intsval ≠ [] → (∃ v ∈ a.intsval, v ≠ 0) →
      attrFind t "count_include_pad" = some ci → ci.ival = 0 →
      verifyNotCastChild t = false) ∧
    (∀ (g : Graph) (n t : Node) (a ci : AttrValue),
      terminalConsumer g n = some t →
      t.opType = "AveragePool" →
      attrFind t "pads" = some a → a.intsval ≠ [] → (∃ v ∈ a.intsval, v ≠ 0) →
      attrFind t "count_include_pad" = some ci → ci.ival = 0 →
      satisfyCondition g n = false) := by
  constructor
  · intro t a ci hop hp hne hnz hci hz
    exact verifyNotCastChild_avgpool_reject t a ci hop hp hne hnz hci hz
  · intro g n t a ci ht hop hp hne hnz hci hz
    exact satisfyCondition_false_of_terminal g n t ht
      (verifyNotCastChild_avgpool_reject t a ci hop hp hne hnz hci hz)

theorem claim_match_avgpool_reject_witness :
    verifyNotCastChild exBadAvg = false ∧
    satisfyCondition exGraphBadAvg exPad = false :=
  ⟨claim_match_avgpool_reject.1 exBadAvg (AttrValue.ints [1, 1, 1, 1]) (AttrValue.int 0)
      rfl rfl (by decide) ⟨1, by decide, by decide⟩ rfl rfl,
   claim_match_avgpool_reject.2 exGraphBadAvg exPad exBadAvg
      (AttrValue.ints [1, 1, 1, 1]) (AttrValue.int 0)
      rfl rfl rfl (by decide) ⟨1, by decide, by decide⟩ rfl rfl⟩

theorem replaceNodeInput_index (n : Node) (i : Nat) (arg : NodeArg) :
    (replaceNodeInput n i arg).index = n.index := rfl

theorem setOutputShape_index (n : Node) (sh : TensorShape) :
    (setOutputShape n sh).index = n.index := rfl

theorem getNode_removeNodeOutputEdges (g : Graph) (i j : Nat) :
    (removeNodeOutputEdges g i).getNode j = g.getNode j := rfl

/-- Claim C3: when `Apply` passes its guards and succeeds, the effect is
`kRemovedCurrentNode`, the pad node's index no longer resolves to a node, and
the immediate consumer's input slot 0 now references the pad node's own data
input. -/
theorem claim_apply_success_removes_pad (g : Graph) (n : Node) (gOut : Graph)
    (eff : RewriteRuleEffect) (p : List Int)
    (hres : resolvePads g n = some p)
    (hg1 : nonSpatialPadCheck p (p.length % 4294967296) = some false)
    (hg2 : p.any (fun v => decide (v < 0)) = false)
    (h : padFusionApply g n = some (gOut, eff)) :
    eff = RewriteRuleEffect.kRemovedCurrentNode ∧
    gOut.getNode n.index = none ∧
    (∀ c0, g.outputNodesBegin n.index = some c0 → c0.index ≠ n.index →
      0 < c0.inputDefs.length →
      ∃ c', gOut.getNode c0.index = some c' ∧
        c'.inputDefs[0]? = some (inputDef n 0)) := by
  obtain ⟨heff, c0, target, target', child2, g3, g4, hc0, htcase, hupd, hchild2, hg3,
    hcase4, hgOut⟩ := padFusionApply_success_inv g n gOut eff p hres hg1 hg2 h
  refine ⟨heff, ?_, ?_⟩
  · rw [hgOut]
    exact getNode_removeNode_self g4 n.index
  · intro c hc hcn hclen
    rw [hc0, Option.some.injEq] at hc
    subst hc
    have hgc0 : g.getNode c0.index = some c0 := getNode_outputNodesBegin g n.index c0 hc0
    have htargetnode : g.getNode target.index = some target := by
      rcases htcase with ⟨-, t0, ht0, rfl⟩ | ⟨-, rfl⟩
      · exact getNode_outputNodesBegin g c0.index target ht0
      · exact hgc0
    have htidx : target'.index = target.index :=
      (updatePaddingAttribute_fields target p (p.length % 4294967296) target' hupd).1
    have htin : target'.inputDefs = target.inputDefs :=
      (updatePaddingAttribute_fields target p (p.length % 4294967296) target' hupd).2.2.1
    have hc2in : child2.inputDefs = c0.inputDefs := by
      rw [getNode_removeNodeOutputEdges] at hchild2
      by_cases hti : c0.index = target.index
      · have htc0 : target = c0 := by
          have h1 : g.getNode c0.index = some target := by
            rw [hti]
            exact htargetnode
          rw [hgc0, Option.some.injEq] at h1
          exact h1.symm
        have hupdn : (g.updateNode target.index target').getNode c0.index = some target' := by
          rw [hti]
          exact getNode_updateNode_self g target.index target' htidx target htargetnode
        rw [hupdn, Option.some.injEq] at hchild2
        rw [← hchild2, htin, htc0]
      · have hupdn : (g.updateNode target.index target').getNode c0.index
            = g.getNode c0.index :=
          getNode_updateNode_ne g target.index c0.index target' htidx hti
        rw [hupdn, hgc0, Option.some.injEq] at hchild2
        rw [← hchild2]
    have hc2idx : child2.index = c0.index := getNode_index _ _ _ hchild2
    have hg3node : g3.getNode c0.index = some (replaceNodeInput child2 0 (inputDef n 0)) := by
      rw [hg3]
      exact getNode_updateNode_self _ c0.index _ (by rw [replaceNodeInput_index, hc2idx])
        child2 hchild2
    have hslot : (replaceNodeInput child2 0 (inputDef n 0)).inputDefs[0]?
        = some (inputDef n 0) := by
      unfold replaceNodeInput
      simp only
      rw [List.getElem?_set_eq_of_lt]
      rw [hc2in]
      exact hclen
    rcases hcase4 with ⟨-, sh, c3, hsh, hc3, hg4eq⟩ | ⟨-, hg4eq⟩
    · rw [hg3node, Option.some.injEq] at hc3
      have hc3idx : (setOutputShape c3 sh).index = c0.index := by
        rw [setOutputShape_index, ← hc3, replaceNodeInput_index, hc2idx]
      have hg4node : g4.getNode c0.index = some (setOutputShape c3 sh) := by
        rw [hg4eq]
        exact getNode_updateNode_self g3 c0.index _ hc3idx _ hg3node
      refine ⟨setOutputShape c3 sh, ?_, ?_⟩
      · rw [hgOut, getNode_removeNode_ne g4 n.index c0.index hcn]
        exact hg4node
      · show (setOutputShape c3 sh).inputDefs[0]? = some (inputDef n 0)
        have : (setOutputShape c3 sh).inputDefs = c3.inputDefs := rfl
        rw [this, ← hc3]
        exact hslot
    · refine ⟨replaceNodeInput child2 0 (inputDef n 0), ?_, hslot⟩
      rw [hgOut, getNode_removeNode_ne g4 n.index c0.index hcn, hg4eq]
      exact hg3node

theorem claim_apply_success_removes_pad_witness :
    padFusionApply exGraphPadConv exPad
      = some (exGraphPadConvFused, RewriteRuleEffect.kRemovedCurrentNode) ∧
    exGraphPadConvFused.getNode exPad.index = none ∧
    (∃ c', exGraphPadConvFused.getNode exConv.index = some c' ∧
      c'.inputDefs[0]? = some (inputDef exPad 0)) := by
  have h := claim_apply_success_removes_pad exGraphPadConv exPad exGraphPadConvFused
    RewriteRuleEffect.kRemovedCurrentNode [0, 0, 1, 1, 0, 0, 1, 1]
    rfl (by decide) (by decide) rfl
  exact ⟨rfl, h.2.1, h.2.2 exConv rfl (by decide) (by decide)⟩

/-- Claim C5: after a successful fusion through a cast, the cast node remains
(with its outgoing edges), and its output-0 shape descriptor equals the shape
of the pad node's original data input — the un-padded shape. -/
theorem claim_cast_chain_shape (g : Graph) (n : Node) (gOut : Graph) (p : List Int) (c : Node)
    (hres : resolvePads g n = some p)
    (hg1 : nonSpatialPadCheck p (p.length % 4294967296) = some false)
    (hg2 : p.any (fun v => decide (v < 0)) = false)
    (h : padFusionApply g n = some (gOut, RewriteRuleEffect.kRemovedCurrentNode))
    (hc : g.outputNodesBegin n.index = some c)
    (hcast : c.opType = "Cast")
    (hcn : c.index ≠ n.index)
    (hout : 0 < c.outputDefs.length)
    (hconsumer : ∀ t0, g.outputNodesBegin c.index = some t0 → t0.index ≠ c.index) :
    (∃ sh c', (inputDef n 0).shape = some sh ∧
      gOut.getNode c.index = some c' ∧
      (c'.outputDefs.getD 0 ⟨"", Option.none⟩).shape = some sh) ∧
    (∀ e ∈ g.edges, e.src = c.index → e.dst ≠ n.index → e ∈ gOut.edges) := by
  obtain ⟨-, c0, target, target', child2, g3, g4, hc0, htcase, hupd, hchild2, hg3,
    hcase4, hgOut⟩ := padFusionApply_success_inv g n gOut RewriteRuleEffect.kRemovedCurrentNode
      p hres hg1 hg2 h
  rw [hc0, Option.some.injEq] at hc
  subst hc
  have hgc0 : g.getNode c0.index = some c0 := getNode_outputNodesBegin g n.index c0 hc0
  rcases htcase with ⟨-, t0, ht0, rfl⟩ | ⟨hne, -⟩
  · have htargetnode : g.getNode target.index = some target :=
      getNode_outputNodesBegin g c0.index target ht0
    have htidx : target'.index = target.index :=
      (updatePaddingAttribute_fields target p (p.length % 4294967296) target' hupd).1
    have hti : c0.index ≠ target.index := Ne.symm (hconsumer target ht0)
    have hc2 : child2 = c0 := by
      rw [getNode_removeNodeOutputEdges] at hchild2
      rw [getNode_updateNode_ne g target.index c0.index target' htidx hti, hgc0,
        Option.some.injEq] at hchild2
      exact hchild2.symm
    subst hc2
    have hg3node : g3.getNode child2.index
        = some (replaceNodeInput child2 0 (inputDef n 0)) := by
      rw [hg3]
      exact getNode_updateNode_self _ child2.index _ (replaceNodeInput_index _ _ _)
        child2 hchild2
    rcases hcase4 with ⟨-, sh, c3, hsh, hc3, hg4eq⟩ | ⟨hnc, -⟩
    · rw [hg3node, Option.some.injEq] at hc3
      subst hc3
      have hg4node : g4.getNode child2.index = some
          (setOutputShape (replaceNodeInput child2 0 (inputDef n 0)) sh) := by
        rw [hg4eq]
        exact getNode_updateNode_self g3 child2.index _ rfl _ hg3node
      constructor
      · refine ⟨sh, setOutputShape (replaceNodeInput child2 0 (inputDef n 0)) sh, hsh, ?_, ?_⟩
        · rw [hgOut, getNode_removeNode_ne g4 n.index child2.index hcn]
          exact hg4node
        · show (((replaceNodeInput child2 0 (inputDef n 0)).outputDefs.set 0
              { (replaceNodeInput child2 0 (inputDef n 0)).outputDefs.getD 0 ⟨"", Option.none⟩
                with shape := some sh }).getD 0 ⟨"", Option.none⟩).shape = some sh
          rw [List.getD_eq_getElem?_getD]
          have houtdefs : (replaceNodeInput child2 0 (inputDef n 0)).outputDefs
              = child2.outputDefs := rfl
          rw [houtdefs, List.getElem?_set_eq_of_lt _ hout]
          rfl
      · intro e he hesrc hedst
        have hedges : gOut.edges = (g.edges.filter (fun e => e.src != n.index)).filter
            (fun e => e.src != n.index && e.dst != n.index) := by
          rw [hgOut, hg4eq, hg3]
          rfl
        rw [hedges]
        refine List.mem_filter.mpr ⟨List.mem_filter.mpr ⟨he, ?_⟩, ?_⟩
        · exact bne_iff_ne.mpr (by rw [hesrc]; exact hcn)
        · have hb1 : (e.src != n.index) = true := bne_iff_ne.mpr (by rw [hesrc]; exact hcn)
          have hb2 : (e.dst != n.index) = true := bne_iff_ne.mpr hedst
          rw [hb1, hb2]
          rfl
    · exact absurd hcast hnc
  · exact absurd hcast hne

theorem claim_cast_chain_shape_witness :
    padFusionApply exGraphPadCastConv exPad
      = some (exGraphPadCastConvFused, RewriteRuleEffect.kRemovedCurrentNode) ∧
    (∃ sh c', (inputDef exPad 0).shape = some sh ∧
      exGraphPadCastConvFused.getNode exCast.index = some c' ∧
      (c'.outputDefs.getD 0 ⟨"", Option.none⟩).shape = some sh) ∧
    (∀ e ∈ exGraphPadCastConv.edges, e.src = exCast.index → e.dst ≠ exPad.index →
      e ∈ exGraphPadCastConvFused.edges) := by
  have h := claim_cast_chain_shape exGraphPadCastConv exPad exGraphPadCastConvFused
    [0, 0, 1, 1, 0, 0, 1, 1] exCast rfl (by decide) (by decide) rfl rfl rfl
    (by decide) (by decide) (by intro t0 ht0; cases ht0; decide)
  exact ⟨rfl, h.1, h.2⟩

/-- Claim C1: merging adds, for each spatial dimension, the begin-side entries
p[2..rank-1] and the mirrored end-side entries p[rank+2..2*rank-1] of the
pad-value sequence into the target's `pads` (initializing it to all zeros of
spatial size when absent or empty), and forces `count_include_pad = 1` on an
AveragePool target; in particular the two spec examples fuse as stated. -/
theorem claim_padding_merge_postcondition :
    (∀ (child : Node) (p : List Int) (rank : Nat),
      2 ≤ rank → 2 * rank < 4294967296 → p.length = 2 * rank →
      (padsOf child = [] ∨ (padsOf child).length = 2 * (rank - 2)) →
      ∃ child', updatePaddingAttribute child p (2 * rank) = some child' ∧
        padsOf child' =
          specMergedPads
            (if padsOf child = [] then List.replicate (2 * (rank - 2)) 0 else padsOf child)
            p rank ∧
        (child.opType = "AveragePool" →
          attrFind child' "count_include_pad" = some (AttrValue.int 1))) ∧
    padFusionApply exGraphPadConv exPad
      = some (exGraphPadConvFused, RewriteRuleEffect.kRemovedCurrentNode) ∧
    padsOf exConvFused = [1, 1, 1, 1] ∧
    padFusionApply exGraphPadAvg exPad
      = some (exGraphPadAvgFused, RewriteRuleEffect.kRemovedCurrentNode) ∧
    padsOf exAvgFused = [1, 1, 1, 1] ∧
    attrFind exAvgFused "count_include_pad" = some (AttrValue.int 1) := by
  refine ⟨?_, rfl, rfl, rfl, rfl, rfl⟩
  intro child p rank h1 h2 h3 h4
  obtain ⟨c', ha, hb, -, -, -, -, hg⟩ := updatePaddingAttribute_spec child p rank h1 h2 h3 h4
  exact ⟨c', ha, hb, hg⟩

theorem claim_padding_merge_postcondition_witness :
    (2 ≤ 4 ∧ ([0, 0, 1, 1, 0, 0, 1, 1] : List Int).length = 2 * 4) ∧
    ∃ child', updatePaddingAttribute exAvg [0, 0, 1, 1, 0, 0, 1, 1] (2 * 4) = some child' ∧
      padsOf child' =
        specMergedPads
          (if padsOf exAvg = [] then List.replicate (2 * (4 - 2)) 0 else padsOf exAvg)
          [0, 0, 1, 1, 0, 0, 1, 1] 4 ∧
      (exAvg.opType = "AveragePool" →
        attrFind child' "count_include_pad" = some (AttrValue.int 1)) :=
  ⟨⟨by decide, by decide⟩,
   claim_padding_merge_postcondition.1 exAvg [0, 0, 1, 1, 0, 0, 1, 1] 4
     (by decide) (by decide) (by decide) (Or.inr (by decide))⟩

theorem exists_ite_some {α : Type} (c : Prop) [inst : Decidable c] (a b : α) :
    ∃ x, (if c then some a else some b) = some x := by
  by_cases h : c
  · exact ⟨a, if_pos h⟩
  · exact ⟨b, if_neg h⟩

theorem mergeLoop_total (p : List Int) (rank cps : Nat) (hrank : 2 ≤ rank)
    (hp : p.length = 2 * rank) (hcps : 2 * (rank - 2) ≤ cps) :
    ∀ (fuel k : Nat) (acc : List Int), 2 ≤ k → k + fuel = rank → acc.length = cps →
      ∃ res, mergeLoop p (2 * rank) cps fuel k acc = some res := by
  intro fuel
  induction fuel with
  | zero =>
    intro k acc _ _ _
    exact ⟨acc, by simp [mergeLoop]⟩
  | succ fuel ih =>
    intro k acc hk hkf hacc
    have hklt : k < rank := by omega
    have hrank3 : 3 ≤ rank := by omega
    have hps2 : 2 * rank / 2 = rank := by omega
    have hltk : k < p.length := by omega
    have hpk := List.getElem?_eq_getElem hltk
    have hltc : k - 2 < acc.length := by omega
    have hck := List.getElem?_eq_getElem hltc
    have hltm : k + 2 * rank / 2 < p.length := by rw [hps2]; omega
    have hpmk := List.getElem?_eq_getElem hltm
    have hl : k - 2 + cps / 2 < (acc.set (k - 2) (acc[k - 2] + p[k])).length := by
      rw [List.length_set]
      omega
    have hcm := List.getElem?_eq_getElem hl
    simp only [mergeLoop, hpk, hck, hpmk, hcm, Option.bind_eq_bind, Option.some_bind]
    exact ih (k + 1) _ (by omega) (by omega) (by simp [hacc])

theorem updatePaddingAttribute_total (child : Node) (p : List Int) (rank : Nat)
    (hrank : 2 ≤ rank) (hbound : 2 * rank < 4294967296) (hp : p.length = 2 * rank)
    (hold : padsOf child = [] ∨
      (2 * (rank - 2) ≤ (padsOf child).length ∧ (padsOf child).length < 4294967296)) :
    ∃ child', updatePaddingAttribute child p (2 * rank) = some child' := by
  have hm4 : (2 * rank + 4294967292) % 4294967296 = 2 * (rank - 2) := by omega
  have hfuel : 2 * rank / 2 - 2 = rank - 2 := by omega
  have hcpsmod : 2 * (rank - 2) % 4294967296 = 2 * (rank - 2) := Nat.mod_eq_of_lt (by omega)
  rcases hfind : attrFind child "pads" with _ | a
  · obtain ⟨res, hml⟩ := mergeLoop_total p rank (2 * (rank - 2)) hrank hp (le_refl _)
      (rank - 2) 2 (List.replicate (2 * (rank - 2)) 0) (le_refl 2) (by omega) (by simp)
    simp only [updatePaddingAttribute, hfind, eq_self_iff_true, if_true,
      padsOf_addAttribute_pads, hm4, List.length_replicate, hcpsmod, hfuel, hml,
      Option.bind_eq_bind, Option.some_bind]
    exact exists_ite_some _ _ _
  · have hpval : padsOf child = a.intsval := by simp [padsOf, hfind]
    by_cases hE : a.intsval = []
    · obtain ⟨res, hml⟩ := mergeLoop_total p rank (2 * (rank - 2)) hrank hp (le_refl _)
        (rank - 2) 2 (List.replicate (2 * (rank - 2)) 0) (le_refl 2) (by omega) (by simp)
      have hEb : a.intsval.isEmpty = true := by simp [hE]
      simp only [updatePaddingAttribute, hfind, hEb, eq_self_iff_true, if_true,
        padsOf_addAttribute_pads, hm4, List.length_replicate, hcpsmod, hfuel, hml,
        Option.bind_eq_bind, Option.some_bind]
      exact exists_ite_some _ _ _
    · have hnil' : ¬ padsOf child = [] := by rw [hpval]; exact hE
      rcases hold with h | ⟨hge, hlt⟩
      · exact absurd h hnil'
      have hge' : 2 * (rank - 2) ≤ a.intsval.length := by rw [← hpval]; exact hge
      have hlt' : a.intsval.length < 4294967296 := by rw [← hpval]; exact hlt
      obtain ⟨res, hml⟩ := mergeLoop_total p rank a.intsval.length hrank hp hge'
        (rank - 2) 2 a.intsval (le_refl 2) (by omega) rfl
      have hEb : a.intsval.isEmpty = false := by
        cases hI : a.intsval
        · exact absurd hI hE
        · simp [hI]
      have hLmod : a.intsval.length % 4294967296 = a.intsval.length :=
        Nat.mod_eq_of_lt hlt'
      simp only [updatePaddingAttribute, hfind, hEb, Bool.false_eq_true, if_false,
        hpval, hLmod, hfuel, hml, Option.bind_eq_bind, Option.some_bind]
      exact exists_ite_some _ _ _

theorem nonSpatialPadCheck_isSome_tot (p : List Int) (rank : Nat) (hrank : 2 ≤ rank)
    (hp : p.length = 2 * rank) :
    (nonSpatialPadCheck p (2 * rank)).isSome = true := by
  have h0 : p[0]? = some (p.getD 0 0) := by
    have hlt : 0 < p.length := by omega
    rw [List.getElem?_eq_getElem hlt, List.getD_eq_getElem?_getD,
      List.getElem?_eq_getElem hlt]
    simp
  have h1 : p[1]? = some (p.getD 1 0) := by
    have hlt : 1 < p.length := by omega
    rw [List.getElem?_eq_getElem hlt, List.getD_eq_getElem?_getD,
      List.getElem?_eq_getElem hlt]
    simp
  have h2 : p[2 * rank / 2]? = some (p.getD (2 * rank / 2) 0) := by
    have hlt : 2 * rank / 2 < p.length := by omega
    rw [List.getElem?_eq_getElem hlt, List.getD_eq_getElem?_getD,
      List.getElem?_eq_getElem hlt]
    simp
  have h3 : p[2 * rank / 2 + 1]? = some (p.getD (2 * rank / 2 + 1) 0) := by
    have hlt : 2 * rank / 2 + 1 < p.length := by omega
    rw [List.getElem?_eq_getElem hlt, List.getD_eq_getElem?_getD,
      List.getElem?_eq_getElem hlt]
    simp
  simp only [nonSpatialPadCheck, h0, h1, h2, h3, Option.bind_eq_bind, Option.some_bind]
  split_ifs <;> rfl

theorem isSupported_opType (n : Node) (op : String) (vs : List Int)
    (h : isSupportedOptypeVersionAndDomain n op vs = true) : n.opType = op := by
  unfold isSupportedOptypeVersionAndDomain at h
  simp only [Bool.and_eq_true, beq_iff_eq] at h
  exact h.1.1

/-- Claim C10 counterexample: all of the claim's stated preconditions hold
(the match predicate accepts, the resolved pad sequence is [0,0,1,1,0,0,1,1]
of length 2*4 with rank 4 ≥ 2, and the terminal Conv's `pads` is non-empty of
length 4 = 2*(4-2)), yet `Apply` crashes (is not total), because the chain
goes through a Cast and the pad node's data input carries no shape: the
cast-shape correction dereferences a null shape descriptor. -/
theorem claim_apply_totality_counterexample :
    satisfyCondition exGraphCastNoShape exPadNoShape = true ∧
    resolvePads exGraphCastNoShape exPadNoShape = some [0, 0, 1, 1, 0, 0, 1, 1] ∧
    ([0, 0, 1, 1, 0, 0, 1, 1] : List Int).length = 2 * 4 ∧
    (∀ t, terminalConsumer exGraphCastNoShape exPadNoShape = some t →
      padsOf t = [] ∨ 2 * (4 - 2) ≤ (padsOf t).length) ∧
    padFusionApply exGraphCastNoShape exPadNoShape = none := by
  refine ⟨rfl, rfl, rfl, ?_, rfl⟩
  intro t ht
  rw [show terminalConsumer exGraphCastNoShape exPadNoShape = some exConvK from rfl,
    Option.some.injEq] at ht
  subst ht
  right
  decide

/-- Claim C10 (amended): `Apply` performs no presence or length checks of its
own; its embedding is total under the preconditions that the match predicate
holds, that the resolved pad sequence has even length 2*rank with rank ≥ 2
(and below the uint32 range), that the terminal target's `pads`, when
non-empty, has length at least 2*(rank-2) (below the uint32 range), and —
additionally, forced by the counterexample — that when the consumer is a
Cast, the pad node's data input carries a shape descriptor.  Neither the
match predicate nor Apply establishes the two length preconditions: the last
two conjuncts exhibit accepted matches on which Apply crashes. -/
theorem claim_apply_totality_amended :
    (∀ (g : Graph) (n : Node) (p : List Int) (rank : Nat),
      satisfyCondition g n = true →
      resolvePads g n = some p →
      2 ≤ rank → 2 * rank < 4294967296 → p.length = 2 * rank →
      (∀ t, terminalConsumer g n = some t →
        padsOf t = [] ∨
          (2 * (rank - 2) ≤ (padsOf t).length ∧ (padsOf t).length < 4294967296)) →
      (∀ c, g.outputNodesBegin n.index = some c → c.opType = "Cast" →
        (inputDef n 0).shape ≠ Option.none) →
      (padFusionApply g n).isSome = true) ∧
    (satisfyCondition exGraphShort exPadShort = true ∧
     resolvePads exGraphShort exPadShort = some [0, 0] ∧
     padFusionApply exGraphShort exPadShort = none) ∧
    (satisfyCondition exGraphConvShortPads exPad = true ∧
     padsOf exConvShortPads = [5] ∧
     padFusionApply exGraphConvShortPads exPad = none) := by
  refine ⟨?_, ⟨rfl, rfl, rfl⟩, ⟨rfl, rfl, rfl⟩⟩
  intro g n p rank hsat hres hrank hbound hp htpads hshape
  have hmod : p.length % 4294967296 = 2 * rank := by
    rw [hp]
    exact Nat.mod_eq_of_lt hbound
  obtain ⟨-, -, -, -, -, hcc, -, -⟩ := satisfyCondition_inv g n hsat
  obtain ⟨c, hc, hcase⟩ := childCheck_inv g n hcc
  have hgc : g.getNode c.index = some c := getNode_outputNodesBegin g n.index c hc
  obtain ⟨b, hns⟩ := Option.isSome_iff_exists.mp (nonSpatialPadCheck_isSome_tot p rank hrank hp)
  simp only [padFusionApply, hres, hmod, hns, Option.bind_eq_bind, Option.some_bind]
  cases b with
  | true =>
    rw [if_pos rfl]
    rfl
  | false =>
    rw [if_neg Bool.false_ne_true]
    cases hneg : p.any (fun v => decide (v < 0)) with
    | true =>
      rw [if_pos rfl]
      rfl
    | false =>
      rw [if_neg Bool.false_ne_true]
      simp only [hc, Option.some_bind, hgc]
      rcases hcase with ⟨hcastS, -, -, t, ht, hvt⟩ | ⟨hcastF, hvc⟩
      · have hcopt : c.opType = "Cast" := isSupported_opType c "Cast" [1, 6, 9, 13] hcastS
        have hcastb : (c.opType == "Cast") = true := beq_iff_eq.mpr hcopt
        rw [if_pos hcastb]
        have hgt : g.getNode t.index = some t := getNode_outputNodesBegin g c.index t ht
        simp only [ht, Option.some_bind, hgt]
        have htc : terminalConsumer g n = some t := by
          simp only [terminalConsumer, hc]
          rw [if_pos hcastS]
          exact ht
        obtain ⟨t', hupd⟩ :=
          updatePaddingAttribute_total t p rank hrank hbound hp (htpads t htc)
        simp only [hupd, Option.some_bind]
        have htidx : t'.index = t.index :=
          (updatePaddingAttribute_fields t p (2 * rank) t' hupd).1
        obtain ⟨child2, hchild2⟩ : ∃ m,
            (removeNodeOutputEdges (g.updateNode t.index t') n.index).getNode c.index
              = some m := by
          rw [getNode_removeNodeOutputEdges]
          by_cases hij : c.index = t.index
          · refine ⟨t', ?_⟩
            rw [hij]
            exact getNode_updateNode_self g t.index t' htidx t hgt
          · refine ⟨c, ?_⟩
            rw [getNode_updateNode_ne g t.index c.index t' htidx hij]
            exact hgc
        simp only [hchild2, Option.some_bind]
        rw [if_pos hcastb]
        rcases hshp : (inputDef n 0).shape with _ | sh
        · exact absurd hshp (hshape c hc hcopt)
        simp only [hshp, Option.some_bind]
        have hc2idx : child2.index = c.index := getNode_index _ _ _ hchild2
        have hc3 : ((removeNodeOutputEdges (g.updateNode t.index t') n.index).updateNode
            c.index (replaceNodeInput child2 0 (inputDef n 0))).getNode c.index
              = some (replaceNodeInput child2 0 (inputDef n 0)) :=
          getNode_updateNode_self _ c.index _ (by rw [replaceNodeInput_index, hc2idx])
            child2 hchild2
        simp only [hc3, Option.some_bind]
        rfl
      · have hcne : c.opType ≠ "Cast" := by
          obtain ⟨hop3, -, -⟩ := verifyNotCastChild_inv c hvc
          rcases hop3 with h | h | h
          · rw [isSupported_opType c "Conv" [1, 11] h]
            decide
          · rw [isSupported_opType c "AveragePool" [7, 10, 11, 19] h]
            decide
          · rw [isSupported_opType c "MaxPool" [1, 8, 10, 11, 12] h]
            decide
        have hcastb : (c.opType == "Cast") = false := beq_eq_false_iff_ne.mpr hcne
        rw [if_neg (by rw [hcastb]; exact Bool.false_ne_true)]
        simp only [Option.pure_def, Option.some_bind]
        have htc : terminalConsumer g n = some c := by
          simp only [terminalConsumer, hc]
          rw [if_neg (by rw [hcastF]; exact Bool.false_ne_true)]
        obtain ⟨t', hupd⟩ :=
          updatePaddingAttribute_total c p rank hrank hbound hp (htpads c htc)
        simp only [hupd, Option.some_bind]
        have htidx : t'.index = c.index :=
          (updatePaddingAttribute_fields c p (2 * rank) t' hupd).1
        have hchild2 : (removeNodeOutputEdges (g.updateNode c.index t') n.index).getNode
            c.index = some t' := by
          rw [getNode_removeNodeOutputEdges]
          exact getNode_updateNode_self g c.index t' htidx c hgc
        simp only [hchild2, Option.some_bind]
        rw [if_neg (by rw [hcastb]; exact Bool.false_ne_true)]
        rfl

theorem claim_apply_totality_amended_witness :
    (padFusionApply exGraphPadCastConv exPad).isSome = true :=
  claim_apply_totality_amended.1 exGraphPadCastConv exPad [0, 0, 1, 1, 0, 0, 1, 1] 4
    rfl rfl (by decide) (by decide) (by decide)
    (by
      intro t ht
      rw [show terminalConsumer exGraphPadCastConv exPad = some exConvK from rfl,
        Option.some.injEq] at ht
      subst ht
      right
      exact ⟨by decide, by decide⟩)
    (by
      intro c hc hcast
      decide)
